import Mathlib

/-!
Verification of the attendance session lifecycle and reconciliation logic of
the ABSENSI NEXUS shift-attendance tracker.

The development shallowly embeds the domain logic of the repository:

- `src/pages/Attendance.tsx` — scan admission (`handleScan`), session
  finalization (`handleEndSession`, `handleConfirmCancel`), live fulfillment
  (`fulfillmentStatus`);
- `src/pages/Dashboard.tsx` — record-derived state (`calculateWorkDuration`),
  the history fulfillment column, the periodic aggregator
  (`generatePeriodicReport`), manual addition (`handleManualAdd`);
- `src/unnamed/part_002` — a second revision of the dashboard whose
  `calculateWorkDuration` and `generatePeriodicReport` differ in formatting
  and in display-name resolution (modelled as the `...V2` functions).

Timestamps are modelled as integer milliseconds (JavaScript `Date.getTime()`),
calendar days as floor division by the day length shifted by a fixed local
timezone offset (JavaScript `toDateString` comparison under a fixed zone), and
the persistent store as explicit lists threaded through the functions.
-/

/-- Worker department (fixed enumeration from `types.ts`). -/
inductive Department where
  | socOperator
  | cache
  | ret
  | inventory
  deriving DecidableEq

/-- Worker status (fixed enumeration from `types.ts`). -/
inductive WorkerStatus where
  | active
  | nonActive
  | blacklist
  deriving DecidableEq

/-- A worker-registry row (`Worker` in `types.ts`).  `id` is optional because
the TypeScript interface declares `id?: string`. -/
structure Worker where
  id : Option String
  opsId : String
  fullName : String
  nik : String
  phone : String
  department : Department
  createdAt : Int
  status : WorkerStatus
  deriving DecidableEq

/-- Manual status tag of a record (`'Partial' | 'Buffer'`). -/
inductive ManualStatus where
  | part
  | buf
  deriving DecidableEq

/-- A persisted attendance record as joined into a session
(`AttendanceRecord` in `types.ts`). -/
structure AttendanceRecord where
  id : Nat
  workerId : String
  opsId : String
  fullName : String
  timestamp : Int
  checkout_timestamp : Option Int
  manual_status : Option ManualStatus
  is_takeout : Bool
  deriving DecidableEq

/-- An attendance session with its records (`AttendanceSession` in
`types.ts`).  `date` is the millisecond timestamp of the session's calendar
date (the parse of its `YYYY-MM-DD` string), `shiftStart` models the parsed
start-of-shift clock offset of the `shiftTime` label used by the manual-add
timestamp. -/
structure AttendanceSession where
  id : String
  date : Int
  division : String
  shiftStart : Int
  planMpp : Nat
  records : List AttendanceRecord
  deriving DecidableEq

/-- A record buffered in memory during an open session
(`Omit<AttendanceRecord, 'id' | 'checkout_timestamp' | 'manual_status' |
'is_takeout'>` in `Attendance.tsx`). -/
structure BufferedRecord where
  workerId : String
  opsId : String
  fullName : String
  timestamp : Int
  deriving DecidableEq

/-- Case folding for the case-insensitive opsId comparisons
(`w.opsId.toLowerCase() === input.toLowerCase()`). -/
def lowerStr (s : String) : String := ⟨s.data.map Char.toLower⟩

/-- `9 * 60 * 60 * 1000` — the fixed nine-hour business window
(`nineHoursInMillis` in the source). -/
def nineHoursInMillis : Int := 9 * 60 * 60 * 1000

/-- Length of one calendar day in milliseconds. -/
def dayMillis : Int := 24 * 60 * 60 * 1000

/-- The local calendar day containing instant `t`, under a fixed timezone
offset `tzOffset` (models JavaScript local-date semantics with a constant
zone). -/
def localDay (tzOffset t : Int) : Int := (t + tzOffset).fdiv dayMillis

/-- Same-calendar-day test
(`lastCheckoutDate.toDateString() === today.toDateString()`). -/
def sameLocalDay (tzOffset a b : Int) : Bool := localDay tzOffset a = localDay tzOffset b

/-- `Math.ceil` of the division `a / b` on integers (used for the remaining
cooldown minutes). -/
def ceilDivInt (a b : Int) : Int := -((-a).fdiv b)

/-! ## Fulfillment classification (C1)

`src/pages/Dashboard.tsx` lines 499-515 (history table) and
`src/pages/Attendance.tsx` lines 217-224 (`fulfillmentStatus`). -/

/-- `session.records.filter(r => !r.is_takeout).length` — the actual
headcount of a persisted session. -/
def sessionActual (s : AttendanceSession) : Nat :=
  (s.records.filter (fun r => !r.is_takeout)).length

/-- Status column of the attendance-history table (`Dashboard.tsx`): start
from `'GAP'`, overwrite with `'FULL FILL'` on equality and with
`'FULL FILL BUFFER'` when actual exceeds plan. -/
def historyStatus (s : AttendanceSession) : String :=
  let actual := sessionActual s
  let planned := s.planMpp
  let status := "GAP"
  let status := if actual = planned then "FULL FILL" else status
  if actual > planned then "FULL FILL BUFFER" else status

/-- `fulfillmentStatus` of the live session (`Attendance.tsx`): the buffered
records carry no takeout flag, the count is the buffer length. -/
def fulfillmentStatusText (planMpp : Nat) (activeRecords : List BufferedRecord) : String :=
  let actual := activeRecords.length
  let planned := planMpp
  if actual < planned then "GAP"
  else if actual = planned then "FULL FILL"
  else "FULL FILL BUFFER"

/-! ## Work duration (C5)

`calculateWorkDuration` in `src/pages/Dashboard.tsx` lines 104-123 and the
revision in `src/unnamed/part_002` lines 131-147. -/

/-- The `Hh Mm` rendering of a millisecond duration used by
`calculateWorkDuration` in `Dashboard.tsx`. -/
def fmtDurationH (d : Int) : String :=
  toString (d.fdiv 3600000) ++ "h " ++ toString ((d % 3600000).fdiv 60000) ++ "m"

/-- The `Hj Mm` rendering of the `part_002` revision. -/
def fmtDurationJ (d : Int) : String :=
  toString (d.fdiv 3600000) ++ "j " ++ toString ((d % 3600000).fdiv 60000) ++ "m"

/-- `calculateWorkDuration` (`Dashboard.tsx`): `'-'` without a checkout or
when the checkout precedes the checkin; otherwise the difference, forced to
nine hours when it equals the auto-checkout length or exceeds it, rendered
as hours and minutes. -/
def calculateWorkDuration (checkin : Int) (checkout : Option Int) : String :=
  match checkout with
  | none => "-"
  | some co =>
    if co < checkin then "-"
    else
      let diff := co - checkin
      let isAutoCheckout := co - checkin = nineHoursInMillis
      let diff := if isAutoCheckout ∨ diff > nineHoursInMillis then nineHoursInMillis else diff
      fmtDurationH diff

/-- `calculateWorkDuration` of the `part_002` revision: same clamping, with
the `j` hour marker. -/
def calculateWorkDurationV2 (checkin : Int) (checkout : Option Int) : String :=
  match checkout with
  | none => "-"
  | some co =>
    if co < checkin then "-"
    else
      let diff := co - checkin
      let diff := if diff > nineHoursInMillis then nineHoursInMillis else diff
      fmtDurationJ diff

/-! ## Session finalization (C9)

`handleEndSession` and `handleConfirmCancel` in `src/pages/Attendance.tsx`
lines 169-204.  The durable store is modelled explicitly. -/

/-- A row of the `attendance_sessions` table as inserted by
`handleEndSession`. -/
structure SessionRow where
  id : String
  date : Int
  division : String
  shiftTime : String
  shiftId : String
  planMpp : Nat
  deriving DecidableEq

/-- A row of the `attendance_records` table as inserted by the end-session
batch (`{ session_id, worker_id, timestamp }`). -/
structure InsertedRecordRow where
  session_id : String
  worker_id : String
  timestamp : Int
  deriving DecidableEq

/-- The durable store as seen by session finalization. -/
structure Store where
  sessions : List SessionRow
  records : List InsertedRecordRow
  deriving DecidableEq

/-- The open-session descriptor (`Omit<AttendanceSession, 'records' | 'id'>`
held in `activeSession`). -/
structure ActiveSessionInfo where
  date : Int
  division : String
  shiftTime : String
  shiftId : String
  planMpp : Nat
  deriving DecidableEq

/-- `handleEndSession`: with a non-empty buffer, insert the session
descriptor once, then insert all buffered records in one batch referencing
the fresh session id; with an empty buffer, persist nothing. -/
def handleEndSession (store : Store) (activeSession : ActiveSessionInfo)
    (activeRecords : List BufferedRecord) (newSessionId : String) : Store :=
  if activeRecords.length > 0 then
    { sessions := store.sessions ++
        [{ id := newSessionId, date := activeSession.date,
           division := activeSession.division, shiftTime := activeSession.shiftTime,
           shiftId := activeSession.shiftId, planMpp := activeSession.planMpp }],
      records := store.records ++ activeRecords.map (fun rec =>
        { session_id := newSessionId, worker_id := rec.workerId,
          timestamp := rec.timestamp }) }
  else store

/-- `handleConfirmCancel`: the open session is discarded client-side; the
store is untouched. -/
def handleConfirmCancel (store : Store) : Store := store

/-! ## Manual addition (C10)

`handleManualAdd` in `src/pages/Dashboard.tsx` lines 360-409. -/

/-- Worker resolution of the manual-add path: case-insensitive opsId match
with no status condition (`workers.find(w => w.opsId.toLowerCase() ===
manualAddOpsId.toLowerCase())`). -/
def resolveWorkerAnyStatus (workers : List Worker) (input : String) : Option Worker :=
  workers.find? (fun w => lowerStr w.opsId == lowerStr input)

/-- Worker resolution of the scan path: case-insensitive opsId match that
additionally requires `status === 'Active'`. -/
def resolveWorker (workers : List Worker) (input : String) : Option Worker :=
  workers.find? (fun w =>
    (lowerStr w.opsId == lowerStr input) && (w.status == WorkerStatus.active))

/-- The row inserted by `handleManualAdd` into `attendance_records`. -/
structure ManualRecordRow where
  session_id : String
  worker_id : String
  timestamp : Int
  manual_status : ManualStatus
  is_takeout : Bool
  deriving DecidableEq

/-- Outcome of a manual addition. -/
inductive ManualAddResult where
  | workerNotFound
  | alreadyInSession
  | inserted (row : ManualRecordRow)
  deriving DecidableEq

/-- The check-in timestamp of a manually added record, modelling
`new Date(selectedSession.date + 'T' + selectedSession.shiftTime)`: the
session date plus the parsed shift start. -/
def manualAddTimestamp (s : AttendanceSession) : Int := s.date + s.shiftStart

/-- `handleManualAdd`: resolve the worker with no status condition, reject
only a missing worker or an existing record for the same `workerId` in the
session, and otherwise insert a record with the chosen manual status and
`is_takeout: false`. -/
def handleManualAdd (workers : List Worker) (selectedSession : AttendanceSession)
    (manualAddOpsId : String) (manualAddStatus : ManualStatus) : ManualAddResult :=
  match resolveWorkerAnyStatus workers manualAddOpsId with
  | none => .workerNotFound
  | some w =>
    match w.id with
    | none => .workerNotFound
    | some wid =>
      if selectedSession.records.any (fun r => r.workerId == wid) then .alreadyInSession
      else .inserted
        { session_id := selectedSession.id, worker_id := wid,
          timestamp := manualAddTimestamp selectedSession,
          manual_status := manualAddStatus, is_takeout := false }

/-! ## Periodic aggregator (C6, C7)

`generatePeriodicReport` in `src/pages/Dashboard.tsx` lines 26-63 and the
revision in `src/unnamed/part_002` lines 28-88. -/

/-- One line of the periodic report (`PeriodicReportData`). -/
structure ReportEntry where
  workerId : String
  opsId : String
  fullName : String
  attendanceCount : Nat
  deriving DecidableEq

/-- `Set.add`: append an element unless it is already present (JavaScript
`Set` keeps first-insertion order). -/
def addUnique (acc : List String) (x : String) : List String :=
  if acc.contains x then acc else acc ++ [x]

/-- `uniqueWorkerIdsThisDay`: the distinct worker ids having at least one
non-takeout record in the session, in first-record order. -/
def sessionWorkerIds (records : List AttendanceRecord) : List String :=
  records.foldl (fun acc r => if r.is_takeout then acc else addUnique acc r.workerId) []

/-- `attendanceCounts[workerId] = (attendanceCounts[workerId] || 0) + 1` on
an insertion-ordered association list. -/
def bumpCount : List (String × Nat) → String → List (String × Nat)
  | [], wid => [(wid, 1)]
  | (k, v) :: rest, wid =>
    if k = wid then (k, v + 1) :: rest else (k, v) :: bumpCount rest wid

/-- The `attendanceCounts` object after the session loop. -/
def attendanceCounts (sessions : List AttendanceSession) : List (String × Nat) :=
  sessions.foldl (fun counts s => (sessionWorkerIds s.records).foldl bumpCount counts) []

/-- JavaScript `x || dflt` on strings (the empty string is falsy). -/
def orDefault (s dflt : String) : String := if s = "" then dflt else s

/-- Insert a report line into a list sorted by descending count. -/
def insertDesc (e : ReportEntry) : List ReportEntry → List ReportEntry
  | [] => [e]
  | x :: xs =>
    if x.attendanceCount ≤ e.attendanceCount then e :: x :: xs else x :: insertDesc e xs

/-- `report.sort((a, b) => b.attendanceCount - a.attendanceCount)` — a stable
sort by descending attendance count. -/
def sortByCountDesc : List ReportEntry → List ReportEntry
  | [] => []
  | x :: xs => insertDesc x (sortByCountDesc xs)

/-- The sessions whose date falls inside the closed query interval
(`sessionDate >= startDate && sessionDate <= endDate`). -/
def relevantSessions (sessions : List AttendanceSession) (startDate endDate : Int) :
    List AttendanceSession :=
  sessions.filter (fun s => decide (startDate ≤ s.date) && decide (s.date ≤ endDate))

/-- `generatePeriodicReport` (`Dashboard.tsx` revision): count one
attendance-day per worker per in-range session having a non-takeout record
for them; resolve the displayed opsId and name from the live registry only,
with `'N/A'` / `'Unknown'` defaults; sort by descending count. -/
def generatePeriodicReport (sessions : List AttendanceSession) (workers : List Worker)
    (startDate endDate : Int) : List ReportEntry :=
  let counts := attendanceCounts (relevantSessions sessions startDate endDate)
  let report := counts.map (fun p =>
    let worker := workers.find? (fun w => w.id == some p.1)
    { workerId := p.1,
      opsId := orDefault (match worker with | some w => w.opsId | none => "") "N/A",
      fullName := orDefault (match worker with | some w => w.fullName | none => "") "Unknown",
      attendanceCount := p.2 })
  sortByCountDesc report

/-- The `workerDetails[wid]` update of the `part_002` revision: remember the
record-embedded opsId and name for a worker the first time they are seen,
overwriting only an `'Unknown'` name. -/
def updDetail (details : List (String × String × String)) (r : AttendanceRecord) :
    List (String × String × String) :=
  match details.find? (fun p => p.1 == r.workerId) with
  | none => details ++ [(r.workerId, r.opsId, r.fullName)]
  | some p =>
    if p.2.2 = "Unknown" then
      details.map (fun q => if q.1 == r.workerId then (r.workerId, r.opsId, r.fullName) else q)
    else details

/-- The `workerDetails` object accumulated over the non-takeout records of
the in-range sessions (`part_002` revision). -/
def workerDetails (sessions : List AttendanceSession) : List (String × String × String) :=
  sessions.foldl (fun d s =>
    s.records.foldl (fun d r => if r.is_takeout then d else updDetail d r) d) []

/-- Lookup of a worker's remembered record-embedded details. -/
def lookupDetail (details : List (String × String × String)) (wid : String) :
    Option (String × String) :=
  match details.find? (fun p => p.1 == wid) with
  | some p => some p.2
  | none => none

/-- Display resolution of the `part_002` revision: take the record-embedded
values; fall back to the live registry when the opsId or name is missing or
the name is `'Unknown'`; default to `'N/A'` / `'Unknown'`. -/
def resolveDisplayV2 (details : List (String × String × String)) (workers : List Worker)
    (wid : String) : String × String :=
  let d0 := lookupDetail details wid
  let opsId0 := match d0 with | some d => d.1 | none => ""
  let fullName0 := match d0 with | some d => d.2 | none => ""
  let resolved :=
    if opsId0 = "" ∨ fullName0 = "" ∨ fullName0 = "Unknown" then
      match workers.find? (fun w => w.id == some wid) with
      | some w => (w.opsId, w.fullName)
      | none => (opsId0, fullName0)
    else (opsId0, fullName0)
  (orDefault resolved.1 "N/A", orDefault resolved.2 "Unknown")

/-- `generatePeriodicReport` of the `part_002` revision: identical counting,
but display values prefer the ones embedded in the attendance records. -/
def generatePeriodicReportV2 (sessions : List AttendanceSession) (workers : List Worker)
    (startDate endDate : Int) : List ReportEntry :=
  let relevant := relevantSessions sessions startDate endDate
  let counts := attendanceCounts relevant
  let details := workerDetails relevant
  let report := counts.map (fun p =>
    let resolved := resolveDisplayV2 details workers p.1
    { workerId := p.1, opsId := resolved.1, fullName := resolved.2,
      attendanceCount := p.2 })
  sortByCountDesc report

/-- `attendanceCounts[workerId] || 0` — lookup in the counts object. -/
def lookupCount (counts : List (String × Nat)) (wid : String) : Nat :=
  match counts.find? (fun p => p.1 == wid) with
  | some p => p.2
  | none => 0

/-- A session qualifies for worker `wid` when it holds at least one
non-takeout record for them. -/
def qualifies (wid : String) (s : AttendanceSession) : Bool :=
  s.records.any (fun r => !r.is_takeout && r.workerId == wid)

/-- The specified per-worker count: the number of in-range sessions in which
the worker has at least one non-takeout record. -/
def specCount (sessions : List AttendanceSession) (startDate endDate : Int)
    (wid : String) : Nat :=
  (relevantSessions sessions startDate endDate).countP (qualifies wid)

/-! ## Scan admission (C2, C3, C4, C8)

`handleScan` in `src/pages/Attendance.tsx` lines 78-167.  The worker
registry, the open-session descriptor, the in-session buffer, the persisted
records consulted by the two store lookups, and the current instant are
gathered in one state record; the auto-close update is the only store
mutation of the scan path. -/

/-- A row of `attendance_records` as consulted by the scan path. -/
structure PersistedRecord where
  id : Nat
  workerId : String
  timestamp : Int
  checkout_timestamp : Option Int
  deriving DecidableEq

/-- The full state a scan reads and writes. -/
structure ScanState where
  workers : List Worker
  division : String
  tzOffset : Int
  now : Int
  db : List PersistedRecord
  buffer : List BufferedRecord
  deriving DecidableEq

/-- Outcome of one scan, mirroring the error taxonomy of the source. -/
inductive ScanResult where
  | ignored
  | workerNotFound
  | alreadyCheckedIn
  | alreadyCompletedToday
  | cooldownActive (hoursLeft minutesLeft : Int)
  | departmentNotAllowed
  | duplicateInSession
  | scanSuccess
  deriving DecidableEq

/-- `divisionToDepartmentMap` (`Attendance.tsx` lines 17-24), with the single
department of a division normalized to a one-element list. -/
def divisionToDepartmentMap (division : String) : Option (List Department) :=
  if division = "ASM2" then some [.socOperator]
  else if division = "CACHE" then some [.cache]
  else if division = "INVENTORY" then some [.inventory]
  else if division = "RETURN" then some [.ret]
  else if division = "TP SUNTER 1" then some [.socOperator, .cache, .ret, .inventory]
  else if division = "TP SUNTER 2" then some [.socOperator, .cache, .ret, .inventory]
  else none

/-- Department check of the scan path: a division absent from the map allows
every department (`if (allowedDepartment) { ... }`). -/
def departmentAllowed (division : String) (dept : Department) : Bool :=
  match divisionToDepartmentMap division with
  | some allowed => allowed.contains dept
  | none => true

/-- The store lookup for a worker's currently open record
(`.eq('worker_id', id).is('checkout_timestamp', null).limit(1).single()`). -/
def findActiveCheckin (db : List PersistedRecord) (workerId : String) :
    Option PersistedRecord :=
  db.find? (fun r => r.workerId == workerId && r.checkout_timestamp.isNone)

/-- The auto-close update: set the checkout of the records with the given
row id (`.update({ checkout_timestamp }).eq('id', activeCheckin.id)`). -/
def closeRecord (db : List PersistedRecord) (recId : Nat) (checkoutTime : Int) :
    List PersistedRecord :=
  db.map (fun r =>
    if r.id = recId then { r with checkout_timestamp := some checkoutTime } else r)

/-- The store lookup for the most recent checkout
(`.not('checkout_timestamp','is',null).order('checkout_timestamp',
desc).limit(1)`): the greatest checkout timestamp among the worker's closed
records. -/
def lastCheckout (db : List PersistedRecord) (workerId : String) : Option Int :=
  (db.filterMap (fun r =>
    if r.workerId = workerId then r.checkout_timestamp else none)).max?

/-- `!opsIdInput.trim()` — the scan input is blank. -/
def isBlank (s : String) : Bool := s.data.all (fun c => c.isWhitespace)

/-- Checks 5 and 6 of the scan path: division-to-department eligibility, then
the in-session duplicate check against the buffered opsIds; on success the
new record is prepended to the buffer. -/
def checkDeptDup (st : ScanState) (w : Worker) (wid : String) : ScanResult × ScanState :=
  if departmentAllowed st.division w.department then
    if st.buffer.any (fun r => r.opsId == w.opsId) then (.duplicateInSession, st)
    else (.scanSuccess,
      { st with buffer :=
          { workerId := wid, opsId := w.opsId, fullName := w.fullName,
            timestamp := st.now } :: st.buffer })
  else (.departmentNotAllowed, st)

/-- Checks 3 and 4 of the scan path: same-calendar-day completed shift, then
the strict nine-hour cooldown with its remaining-time payload. -/
def checkHistory (st : ScanState) (w : Worker) (wid : String) : ScanResult × ScanState :=
  match lastCheckout st.db wid with
  | none => checkDeptDup st w wid
  | some c =>
    if sameLocalDay st.tzOffset c st.now then (.alreadyCompletedToday, st)
    else if st.now - c < nineHoursInMillis then
      let timeLeft := nineHoursInMillis - (st.now - c)
      (.cooldownActive (timeLeft.fdiv 3600000) (ceilDivInt (timeLeft % 3600000) 60000), st)
    else checkDeptDup st w wid

/-- `handleScan`: the six admission checks in source order.  A blank input is
ignored; an open prior record strictly older than nine hours is auto-closed
at checkin plus nine hours before the remaining checks run. -/
def handleScan (st : ScanState) (opsIdInput : String) : ScanResult × ScanState :=
  if isBlank opsIdInput then (.ignored, st)
  else
    match resolveWorker st.workers opsIdInput with
    | none => (.workerNotFound, st)
    | some w =>
      match w.id with
      | none => (.workerNotFound, st)
      | some wid =>
        match findActiveCheckin st.db wid with
        | some activeCheckin =>
          if nineHoursInMillis < st.now - activeCheckin.timestamp then
            checkHistory
              { st with
                db := closeRecord st.db activeCheckin.id
                  (activeCheckin.timestamp + nineHoursInMillis) } w wid
          else (.alreadyCheckedIn, st)
        | none => checkHistory st w wid

/-- The state against which checks 3-6 run: unchanged when the worker has no
open record, the auto-closed store when the open record is stale, absent
when the open record is fresh (the scan stops with `AlreadyCheckedIn`). -/
def scanStateAfterOpenCheck (st : ScanState) (wid : String) : Option ScanState :=
  match findActiveCheckin st.db wid with
  | none => some st
  | some ac =>
    if nineHoursInMillis < st.now - ac.timestamp then
      some { st with db := closeRecord st.db ac.id (ac.timestamp + nineHoursInMillis) }
    else none

/-! ## Scan reachability (C8)

Scan-only evolutions of the scan state: each step is one scan (at the
state's clock) or a forward clock movement. -/

/-- One step of an open session's life: a scan, or time passing. -/
inductive ScanStep : ScanState → ScanState → Prop where
  | scan (st : ScanState) (input : String) : ScanStep st (handleScan st input).2
  | advanceTime (st : ScanState) (t : Int) (h : st.now ≤ t) :
      ScanStep st { st with now := t }

/-- States reachable from an initial state by scans and clock movements. -/
def ScanReachable (a b : ScanState) : Prop := Relation.ReflTransGen ScanStep a b

/-- Registry well-formedness: the worker id is an identity (two registry rows
with the same assigned id are the same row). -/
def RegistryWF (workers : List Worker) : Prop :=
  ∀ w1 ∈ workers, ∀ w2 ∈ workers, w1.id = w2.id → w1.id ≠ none → w1 = w2

/-- No worker has two simultaneously open records. -/
def OpenConflictFree (db : List PersistedRecord) : Prop :=
  db.Pairwise (fun a b =>
    ¬(a.workerId = b.workerId ∧ a.checkout_timestamp = none ∧ b.checkout_timestamp = none))

/-- Store well-formedness: distinct row ids, and at most one open record per
worker. -/
def DbWF (db : List PersistedRecord) : Prop :=
  (db.map (fun r => r.id)).Nodup ∧ OpenConflictFree db

/-- The most recent checkout of the worker is neither on the current local
calendar day nor within the nine-hour cooldown. -/
def LastCheckoutOk (tzOffset now : Int) (db : List PersistedRecord) (wid : String) : Prop :=
  ∀ c, lastCheckout db wid = some c →
    sameLocalDay tzOffset c now = false ∧ nineHoursInMillis ≤ now - c

/-- Every buffered record belongs to a resolvable Active worker who, at the
current state, passes the open-record, history and department checks. -/
def BufferInv (st : ScanState) : Prop :=
  ∀ b ∈ st.buffer, ∃ w wid,
    resolveWorker st.workers b.opsId = some w ∧
    w.opsId = b.opsId ∧ w.id = some wid ∧ b.workerId = wid ∧
    findActiveCheckin st.db wid = none ∧
    LastCheckoutOk st.tzOffset st.now st.db wid ∧
    departmentAllowed st.division w.department = true

/-- Invariant carried through every scan-only evolution. -/
def GoodScanState (st : ScanState) : Prop :=
  RegistryWF st.workers ∧ DbWF st.db ∧ BufferInv st

/-! ## Concrete fixtures used by the closed evaluation theorems -/

/-- A registry row with the administrative fields blank. -/
def mkWorker (id : Option String) (opsId fullName : String) (dept : Department)
    (status : WorkerStatus) : Worker :=
  { id := id, opsId := opsId, fullName := fullName, nik := "", phone := "",
    department := dept, createdAt := 0, status := status }

/-- An Active Cache worker with operational id `OPS1`. -/
def wAlice : Worker := mkWorker (some "w1") "OPS1" "Alice" .cache .active

/-- A blacklisted Cache worker with operational id `BL1`. -/
def wBob : Worker := mkWorker (some "w9") "BL1" "Bob" .cache .blacklist

/-- A scan state for an open `CACHE` session with an empty buffer and an
empty store. -/
def stC2 : ScanState :=
  { workers := [wAlice], division := "CACHE", tzOffset := 0, now := 90000000,
    db := [], buffer := [] }

/-- A scan state whose store holds one open record of `wAlice`, checked in
twenty hours before the current instant (14:00 of day 0; now 10:00 of
day 1). -/
def stC3 : ScanState :=
  { workers := [wAlice], division := "CACHE", tzOffset := 0, now := 122400000,
    db := [{ id := 1, workerId := "w1", timestamp := 50400000,
             checkout_timestamp := none }],
    buffer := [] }

/-- A scan state whose store holds a record of `wAlice` checked out at 08:00
of day 0, with the clock at 17:00:01 of the same day. -/
def stC4 : ScanState :=
  { workers := [wAlice], division := "CACHE", tzOffset := 0, now := 61201000,
    db := [{ id := 1, workerId := "w1", timestamp := 0,
             checkout_timestamp := some 28800000 }],
    buffer := [] }

/-- A scan state whose store holds a record of `wAlice` checked out at 23:00
of day 0, with the clock at 07:59 of day 1 (one minute of cooldown left). -/
def stC4b : ScanState :=
  { workers := [wAlice], division := "CACHE", tzOffset := 0, now := 115140000,
    db := [{ id := 1, workerId := "w1", timestamp := 54000000,
             checkout_timestamp := some 82800000 }],
    buffer := [] }

/-- The state `stC4b` one minute later (08:00 of day 1, exactly nine hours
after the 23:00 checkout). -/
def stC4c : ScanState :=
  { workers := [wAlice], division := "CACHE", tzOffset := 0, now := 115200000,
    db := [{ id := 1, workerId := "w1", timestamp := 54000000,
             checkout_timestamp := some 82800000 }],
    buffer := [] }

/-- Initial state of the duplicate-scan evaluation: one Active worker, empty
store, empty buffer. -/
def stC8init : ScanState :=
  { workers := [wAlice], division := "CACHE", tzOffset := 0, now := 90000000,
    db := [], buffer := [] }

/-- The state after scanning `OPS1` once into the open session. -/
def stC8 : ScanState := (handleScan stC8init "OPS1").2

/-- A non-takeout record of worker `w1`. -/
def rAlice1 : AttendanceRecord :=
  { id := 1, workerId := "w1", opsId := "OPS1", fullName := "Alice",
    timestamp := 0, checkout_timestamp := none, manual_status := none,
    is_takeout := false }

/-- A second (duplicate) non-takeout record of worker `w1`. -/
def rAlice2 : AttendanceRecord :=
  { id := 2, workerId := "w1", opsId := "OPS1", fullName := "Alice",
    timestamp := 100, checkout_timestamp := none, manual_status := none,
    is_takeout := false }

/-- A takeout-flagged record of worker `w2`. -/
def rCharlieTakeout : AttendanceRecord :=
  { id := 3, workerId := "w2", opsId := "OPS2", fullName := "Charlie",
    timestamp := 0, checkout_timestamp := none, manual_status := none,
    is_takeout := true }

/-- An in-range session with a duplicated worker and a takeout record. -/
def sC6a : AttendanceSession :=
  { id := "s1", date := 5, division := "CACHE", shiftStart := 0, planMpp := 2,
    records := [rAlice1, rAlice2, rCharlieTakeout] }

/-- An out-of-range session. -/
def sC6b : AttendanceSession :=
  { id := "s2", date := 20, division := "CACHE", shiftStart := 0, planMpp := 1,
    records := [rAlice1] }

/-- A session whose only record embeds the opsId and name of a worker absent
from the registry. -/
def sC7 : AttendanceSession :=
  { id := "s7", date := 5, division := "CACHE", shiftStart := 0, planMpp := 1,
    records := [rAlice1] }

/-- A persisted session with no records, used by the manual-add evaluation. -/
def sC10 : AttendanceSession :=
  { id := "s9", date := 0, division := "CACHE", shiftStart := 28800000,
    planMpp := 1, records := [] }

/-! # Theorems -/

/-- C1: for every session, the fulfillment classification is computed from
the count of non-takeout records: GAP exactly when the actual count is below
`planMpp`, FULL FILL exactly on equality, FULL FILL BUFFER exactly when the
actual count exceeds `planMpp`; the live session classifies its buffer
length the same way. -/
theorem fulfillment_classification (s : AttendanceSession) (plan : Nat)
    (buf : List BufferedRecord) :
    ((historyStatus s = "GAP" ↔ sessionActual s < s.planMpp) ∧
     (historyStatus s = "FULL FILL" ↔ sessionActual s = s.planMpp) ∧
     (historyStatus s = "FULL FILL BUFFER" ↔ sessionActual s > s.planMpp)) ∧
    ((fulfillmentStatusText plan buf = "GAP" ↔ buf.length < plan) ∧
     (fulfillmentStatusText plan buf = "FULL FILL" ↔ buf.length = plan) ∧
     (fulfillmentStatusText plan buf = "FULL FILL BUFFER" ↔ buf.length > plan)) := by
  constructor
  · rcases Nat.lt_trichotomy (sessionActual s) s.planMpp with h | h | h
    · simp [historyStatus, h, Nat.ne_of_lt h, Nat.not_lt.mpr h.le, Nat.lt_asymm h]
    · simp [historyStatus, h]
    · simp [historyStatus, h, (Nat.ne_of_lt h).symm, Nat.lt_asymm h]
  · rcases Nat.lt_trichotomy buf.length plan with h | h | h
    · simp [fulfillmentStatusText, h, Nat.ne_of_lt h, Nat.lt_asymm h]
    · simp [fulfillmentStatusText, h]
    · simp [fulfillmentStatusText, h, (Nat.ne_of_lt h).symm, Nat.not_lt.mpr h.le,
        Nat.lt_asymm h]

/-- C5: `calculateWorkDuration` returns the no-value marker without an
effective checkout or when the checkout precedes the checkin, and otherwise
renders `min(checkout - checkin, 9h)` as hours and minutes, in both
dashboard revisions; a 09:00 checkin with a 19:00 checkout renders as
`9h 0m`. -/
theorem workDuration_clamps_at_nine_hours (checkin : Int) (checkout : Option Int) :
    (checkout = none →
        calculateWorkDuration checkin checkout = "-" ∧
        calculateWorkDurationV2 checkin checkout = "-") ∧
    (∀ co, checkout = some co → co < checkin →
        calculateWorkDuration checkin checkout = "-" ∧
        calculateWorkDurationV2 checkin checkout = "-") ∧
    (∀ co, checkout = some co → checkin ≤ co →
        calculateWorkDuration checkin checkout =
          fmtDurationH (min (co - checkin) nineHoursInMillis) ∧
        calculateWorkDurationV2 checkin checkout =
          fmtDurationJ (min (co - checkin) nineHoursInMillis)) ∧
    calculateWorkDuration 32400000 (some 68400000) = "9h 0m" := by
  refine ⟨?_, ?_, ?_, by decide⟩
  · rintro rfl
    exact ⟨rfl, rfl⟩
  · rintro co rfl hlt
    constructor <;> simp [calculateWorkDuration, calculateWorkDurationV2, hlt]
  · rintro co rfl hle
    have hnlt : ¬co < checkin := not_lt.mpr hle
    rcases lt_trichotomy (co - checkin) nineHoursInMillis with h | h | h
    · have hmin : min (co - checkin) nineHoursInMillis = co - checkin :=
        min_eq_left h.le
      constructor <;>
        simp [calculateWorkDuration, calculateWorkDurationV2, hnlt, h.ne,
          not_lt.mpr h.le, hmin]
    · have hmin : min (co - checkin) nineHoursInMillis = nineHoursInMillis := by
        rw [h, min_self]
      constructor <;>
        simp [calculateWorkDuration, calculateWorkDurationV2, hnlt, h,
          not_lt.mpr h.le, hmin]
    · have hmin : min (co - checkin) nineHoursInMillis = nineHoursInMillis :=
        min_eq_right h.le
      constructor <;>
        simp [calculateWorkDuration, calculateWorkDurationV2, hnlt, h, hmin]

/-- Closed evaluation of `workDuration_clamps_at_nine_hours` at concrete
inputs: a missing checkout, a negative duration, and a one-hour-one-minute
shift. -/
theorem workDuration_clamps_witness :
    calculateWorkDuration 0 none = "-" ∧
    calculateWorkDuration 100 (some 50) = "-" ∧
    calculateWorkDuration 0 (some 3660000) =
      fmtDurationH (min 3660000 nineHoursInMillis) := by
  refine ⟨((workDuration_clamps_at_nine_hours 0 none).1 rfl).1, ?_, ?_⟩
  · exact ((workDuration_clamps_at_nine_hours 100 (some 50)).2.1 50 rfl
      (by decide)).1
  · exact ((workDuration_clamps_at_nine_hours 0 (some 3660000)).2.2.1 3660000 rfl
      (by decide)).1

/-- C9: ending a session with an empty buffer persists nothing and has the
same effect on the store as cancelling; ending with a non-empty buffer
appends exactly one session row and then the batch of buffered records, each
referencing the fresh session id. -/
theorem end_session_persistence (store : Store) (a : ActiveSessionInfo)
    (buf : List BufferedRecord) (nid : String) :
    (buf = [] →
        handleEndSession store a buf nid = store ∧
        handleEndSession store a buf nid = handleConfirmCancel store) ∧
    (buf ≠ [] →
        (handleEndSession store a buf nid).sessions =
          store.sessions ++
            [{ id := nid, date := a.date, division := a.division,
               shiftTime := a.shiftTime, shiftId := a.shiftId,
               planMpp := a.planMpp }] ∧
        (handleEndSession store a buf nid).records =
          store.records ++ buf.map (fun rec =>
            { session_id := nid, worker_id := rec.workerId,
              timestamp := rec.timestamp }) ∧
        ∀ r ∈ buf.map (fun rec =>
            ({ session_id := nid, worker_id := rec.workerId,
               timestamp := rec.timestamp } : InsertedRecordRow)),
          r.session_id = nid) := by
  constructor
  · rintro rfl
    exact ⟨rfl, rfl⟩
  · intro hne
    have hlen : 0 < buf.length := List.length_pos.mpr hne
    refine ⟨?_, ?_, ?_⟩
    · simp [handleEndSession, hlen]
    · simp [handleEndSession, hlen]
    · intro r hr
      rcases List.mem_map.mp hr with ⟨rec, _, rfl⟩
      rfl

/-- Closed evaluation of `end_session_persistence`: an empty buffer leaves
the store untouched, a one-record buffer appends one session row and one
record row carrying the new session id. -/
theorem end_session_persistence_witness :
    handleEndSession { sessions := [], records := [] }
        { date := 0, division := "CACHE", shiftTime := "08:00 - 17:00",
          shiftId := "S8", planMpp := 2 } [] "sid0" =
      { sessions := [], records := [] } ∧
    (handleEndSession { sessions := [], records := [] }
        { date := 0, division := "CACHE", shiftTime := "08:00 - 17:00",
          shiftId := "S8", planMpp := 2 }
        [{ workerId := "w1", opsId := "OPS1", fullName := "Alice",
           timestamp := 1000 }] "sid1").records =
      [{ session_id := "sid1", worker_id := "w1", timestamp := 1000 }] := by
  constructor
  · exact ((end_session_persistence { sessions := [], records := [] }
      { date := 0, division := "CACHE", shiftTime := "08:00 - 17:00",
        shiftId := "S8", planMpp := 2 } [] "sid0").1 rfl).1
  · have h := (end_session_persistence { sessions := [], records := [] }
      { date := 0, division := "CACHE", shiftTime := "08:00 - 17:00",
        shiftId := "S8", planMpp := 2 }
      [{ workerId := "w1", opsId := "OPS1", fullName := "Alice",
         timestamp := 1000 }] "sid1").2 (by decide)
    rw [h.2.1]
    rfl

/-- C10: the manual-add path resolves the worker case-insensitively with no
status condition, so a Non Active or Blacklist worker is inserted (with
`is_takeout` false and the chosen manual status) whenever no record for the
same worker id exists in the session, whereas the scan path only ever
resolves Active workers. -/
theorem manual_add_ignores_worker_status (workers : List Worker)
    (s : AttendanceSession) (input : String) (status : ManualStatus)
    (w : Worker) (wid : String)
    (hw : resolveWorkerAnyStatus workers input = some w)
    (hid : w.id = some wid)
    (hfresh : ∀ r ∈ s.records, r.workerId ≠ wid) :
    handleManualAdd workers s input status =
      .inserted { session_id := s.id, worker_id := wid,
                  timestamp := manualAddTimestamp s,
                  manual_status := status, is_takeout := false } ∧
    ∀ ws i w2, resolveWorker ws i = some w2 → w2.status = WorkerStatus.active := by
  constructor
  · have hany : s.records.any (fun r => r.workerId == wid) = false := by
      rw [List.any_eq_false]
      intro r hr
      simpa using hfresh r hr
    simp [handleManualAdd, hw, hid, hany]
  · intro ws i w2 h
    have hp := List.find?_some h
    simp only [Bool.and_eq_true, beq_iff_eq] at hp
    exact hp.2

/-- Closed evaluation of `manual_add_ignores_worker_status`: the blacklisted
worker `wBob`, addressed in a different letter case, is inserted into the
empty persisted session. -/
theorem manual_add_ignores_worker_status_witness :
    handleManualAdd [wBob] sC10 "bl1" ManualStatus.part =
      .inserted { session_id := "s9", worker_id := "w9",
                  timestamp := manualAddTimestamp sC10,
                  manual_status := ManualStatus.part, is_takeout := false } ∧
    wBob.status = WorkerStatus.blacklist := by
  constructor
  · exact (manual_add_ignores_worker_status [wBob] sC10 "bl1" ManualStatus.part
      wBob "w9" (by decide) (by decide) (by decide)).1
  · rfl

/-- The state used by checks 3-6 differs from the scan's initial state at
most in the store. -/
theorem scanAfterOpen_fields (st : ScanState) (wid : String) (st1 : ScanState)
    (h : scanStateAfterOpenCheck st wid = some st1) :
    st1.workers = st.workers ∧ st1.division = st.division ∧
    st1.tzOffset = st.tzOffset ∧ st1.now = st.now ∧ st1.buffer = st.buffer := by
  unfold scanStateAfterOpenCheck at h
  rcases hfa : findActiveCheckin st.db wid with _ | ac <;>
    rw [hfa] at h <;> simp only [] at h
  · injection h with h
    subst h
    exact ⟨rfl, rfl, rfl, rfl, rfl⟩
  · by_cases hst : nineHoursInMillis < st.now - ac.timestamp
    · rw [if_pos hst] at h
      injection h with h
      subst h
      exact ⟨rfl, rfl, rfl, rfl, rfl⟩
    · rw [if_neg hst] at h
      cases h

/-- After a successful resolution, the scan either stops with
`AlreadyCheckedIn` on a fresh open record or continues with checks 3-6
against the post-open-check state. -/
theorem handleScan_open_branch (st : ScanState) (input : String) (w : Worker)
    (wid : String) (hin : isBlank input = false)
    (hw : resolveWorker st.workers input = some w) (hid : w.id = some wid) :
    (∀ ac, findActiveCheckin st.db wid = some ac →
        st.now - ac.timestamp ≤ nineHoursInMillis →
        handleScan st input = (.alreadyCheckedIn, st)) ∧
    (∀ st1, scanStateAfterOpenCheck st wid = some st1 →
        handleScan st input = checkHistory st1 w wid) := by
  constructor
  · intro ac hac hfresh
    simp [handleScan, hin, hw, hid, hac, not_lt.mpr hfresh]
  · intro st1 h1
    unfold scanStateAfterOpenCheck at h1
    rcases hfa : findActiveCheckin st.db wid with _ | ac <;>
      rw [hfa] at h1 <;> simp only [] at h1
    · injection h1 with h1
      subst h1
      simp [handleScan, hin, hw, hid, hfa]
    · by_cases hst : nineHoursInMillis < st.now - ac.timestamp
      · rw [if_pos hst] at h1
        injection h1 with h1
        subst h1
        simp [handleScan, hin, hw, hid, hfa, hst]
      · rw [if_neg hst] at h1
        cases h1

/-- Case analysis of checks 3 and 4. -/
theorem checkHistory_cases (st : ScanState) (w : Worker) (wid : String) :
    (∀ c, lastCheckout st.db wid = some c →
        sameLocalDay st.tzOffset c st.now = true →
        checkHistory st w wid = (.alreadyCompletedToday, st)) ∧
    (∀ c, lastCheckout st.db wid = some c →
        sameLocalDay st.tzOffset c st.now = false →
        st.now - c < nineHoursInMillis →
        checkHistory st w wid =
          (.cooldownActive ((nineHoursInMillis - (st.now - c)).fdiv 3600000)
             (ceilDivInt ((nineHoursInMillis - (st.now - c)) % 3600000) 60000),
           st)) ∧
    ((lastCheckout st.db wid = none ∨
        ∃ c, lastCheckout st.db wid = some c ∧
          sameLocalDay st.tzOffset c st.now = false ∧
          nineHoursInMillis ≤ st.now - c) →
      checkHistory st w wid = checkDeptDup st w wid) := by
  refine ⟨?_, ?_, ?_⟩
  · intro c hc hsame
    simp [checkHistory, hc, hsame]
  · intro c hc hsame hcool
    simp [checkHistory, hc, hsame, hcool]
  · rintro (hnone | ⟨c, hc, hsame, hpass⟩)
    · simp [checkHistory, hnone]
    · simp [checkHistory, hc, hsame, not_lt.mpr hpass]

/-- Case analysis of checks 5 and 6 and of the success path. -/
theorem checkDeptDup_cases (st : ScanState) (w : Worker) (wid : String) :
    (departmentAllowed st.division w.department = false →
        checkDeptDup st w wid = (.departmentNotAllowed, st)) ∧
    (departmentAllowed st.division w.department = true →
      (st.buffer.any (fun r => r.opsId == w.opsId) = true →
          checkDeptDup st w wid = (.duplicateInSession, st)) ∧
      (st.buffer.any (fun r => r.opsId == w.opsId) = false →
          checkDeptDup st w wid =
            (.scanSuccess,
             { st with buffer :=
                 { workerId := wid, opsId := w.opsId, fullName := w.fullName,
                   timestamp := st.now } :: st.buffer }))) := by
  refine ⟨?_, ?_⟩
  · intro hdept
    simp [checkDeptDup, hdept]
  · intro hdept
    constructor
    · intro hdup
      simp [checkDeptDup, hdept, hdup]
    · intro hdup
      simp [checkDeptDup, hdept, hdup]

/-- C2: the admissibility checks of a scan run in the fixed source order —
Active-worker resolution, open-record conflict with the nine-hour
auto-close, same-calendar-day completed shift, strict nine-hour cooldown,
division-to-department eligibility, in-session duplicate — the first failing
check alone determines the reported failure, and on success the record
`{workerId, opsId, fullName, timestamp = now}` is prepended to the
buffer. -/
theorem scan_checks_order (st : ScanState) (input : String)
    (hin : isBlank input = false) :
    (resolveWorker st.workers input = none →
        handleScan st input = (.workerNotFound, st)) ∧
    (∀ w, resolveWorker st.workers input = some w → w.id = none →
        handleScan st input = (.workerNotFound, st)) ∧
    (∀ w wid, resolveWorker st.workers input = some w → w.id = some wid →
      (∀ ac, findActiveCheckin st.db wid = some ac →
          st.now - ac.timestamp ≤ nineHoursInMillis →
          handleScan st input = (.alreadyCheckedIn, st)) ∧
      (∀ st1, scanStateAfterOpenCheck st wid = some st1 →
        (∀ c, lastCheckout st1.db wid = some c →
            sameLocalDay st.tzOffset c st.now = true →
            handleScan st input = (.alreadyCompletedToday, st1)) ∧
        (∀ c, lastCheckout st1.db wid = some c →
            sameLocalDay st.tzOffset c st.now = false →
            st.now - c < nineHoursInMillis →
            handleScan st input =
              (.cooldownActive ((nineHoursInMillis - (st.now - c)).fdiv 3600000)
                (ceilDivInt ((nineHoursInMillis - (st.now - c)) % 3600000) 60000),
               st1)) ∧
        ((lastCheckout st1.db wid = none ∨
            ∃ c, lastCheckout st1.db wid = some c ∧
              sameLocalDay st.tzOffset c st.now = false ∧
              nineHoursInMillis ≤ st.now - c) →
          (departmentAllowed st.division w.department = false →
              handleScan st input = (.departmentNotAllowed, st1)) ∧
          (departmentAllowed st.division w.department = true →
            (st.buffer.any (fun r => r.opsId == w.opsId) = true →
                handleScan st input = (.duplicateInSession, st1)) ∧
            (st.buffer.any (fun r => r.opsId == w.opsId) = false →
                handleScan st input =
                  (.scanSuccess,
                   { st1 with buffer :=
                       { workerId := wid, opsId := w.opsId,
                         fullName := w.fullName,
                         timestamp := st.now } :: st1.buffer })))))) := by
  refine ⟨?_, ?_, ?_⟩
  · intro h
    simp [handleScan, hin, h]
  · intro w hw hid
    simp [handleScan, hin, hw, hid]
  · intro w wid hw hid
    refine ⟨(handleScan_open_branch st input w wid hin hw hid).1, ?_⟩
    intro st1 h1
    have hmain := (handleScan_open_branch st input w wid hin hw hid).2 st1 h1
    obtain ⟨hww, hdv, htz, hnw, hbf⟩ := scanAfterOpen_fields st wid st1 h1
    refine ⟨?_, ?_, ?_⟩
    · intro c hc hsame
      rw [hmain]
      exact (checkHistory_cases st1 w wid).1 c hc (by rw [htz, hnw]; exact hsame)
    · intro c hc hsame hcool
      rw [hmain]
      have heq := (checkHistory_cases st1 w wid).2.1 c hc
        (by rw [htz, hnw]; exact hsame) (by rw [hnw]; exact hcool)
      rw [heq, hnw]
    · intro hpass
      have hch : checkHistory st1 w wid = checkDeptDup st1 w wid := by
        refine (checkHistory_cases st1 w wid).2.2 ?_
        rcases hpass with h | ⟨c, hc, hsame, hge⟩
        · exact Or.inl h
        · exact Or.inr ⟨c, hc, by rw [htz, hnw]; exact hsame, by rw [hnw]; exact hge⟩
      constructor
      · intro hdept
        rw [hmain, hch]
        exact (checkDeptDup_cases st1 w wid).1 (by rw [hdv]; exact hdept)
      · intro hdept
        constructor
        · intro hdup
          rw [hmain, hch]
          exact ((checkDeptDup_cases st1 w wid).2 (by rw [hdv]; exact hdept)).1
            (by rw [hbf]; exact hdup)
        · intro hdup
          rw [hmain, hch]
          have hs := ((checkDeptDup_cases st1 w wid).2 (by rw [hdv]; exact hdept)).2
            (by rw [hbf]; exact hdup)
          rw [hs, hnw]

/-- Closed evaluation of `scan_checks_order`: with all checks passing, the
scan of `OPS1` into the open `CACHE` session prepends the buffered record
carrying the current instant. -/
theorem scan_checks_order_witness :
    handleScan stC2 "OPS1" =
      (.scanSuccess,
       { stC2 with buffer :=
           [{ workerId := "w1", opsId := "OPS1", fullName := "Alice",
              timestamp := 90000000 }] }) := by
  have h := (((scan_checks_order stC2 "OPS1" (by decide)).2.2 wAlice "w1"
      (by decide) (by decide)).2 stC2 (by decide)).2.2
      (Or.inl (by decide))
  have hs := (h.2 (by decide)).2 (by decide)
  exact hs

/-- Checks 3-6 never report a resolution or open-record failure. -/
theorem checkHistory_result_shape (st : ScanState) (w : Worker) (wid : String) :
    (checkHistory st w wid).1 ≠ .alreadyCheckedIn ∧
    (checkHistory st w wid).1 ≠ .workerNotFound := by
  unfold checkHistory checkDeptDup
  rcases lastCheckout st.db wid with _ | c <;> simp only [] <;>
    (repeat' split) <;> simp

/-- C3: a stale open record (checked in strictly more than nine hours ago)
is auto-closed at checkin plus exactly nine hours and the scan proceeds to
the remaining checks against the updated store; a fresh open record stops
the scan with `AlreadyCheckedIn` and changes nothing. -/
theorem scan_autoclose_stale_open (st : ScanState) (input : String) (w : Worker)
    (wid : String) (ac : PersistedRecord)
    (hin : isBlank input = false)
    (hw : resolveWorker st.workers input = some w) (hid : w.id = some wid)
    (hac : findActiveCheckin st.db wid = some ac) :
    (nineHoursInMillis < st.now - ac.timestamp →
        handleScan st input =
          checkHistory
            { st with
              db := closeRecord st.db ac.id (ac.timestamp + nineHoursInMillis) }
            w wid ∧
        (∀ r ∈ closeRecord st.db ac.id (ac.timestamp + nineHoursInMillis),
            r.id = ac.id →
            r.checkout_timestamp = some (ac.timestamp + nineHoursInMillis)) ∧
        (handleScan st input).1 ≠ .alreadyCheckedIn) ∧
    (st.now - ac.timestamp ≤ nineHoursInMillis →
        handleScan st input = (.alreadyCheckedIn, st)) := by
  constructor
  · intro hstale
    have hafter : scanStateAfterOpenCheck st wid =
        some { st with
               db := closeRecord st.db ac.id (ac.timestamp + nineHoursInMillis) } := by
      unfold scanStateAfterOpenCheck
      rw [hac]
      simp only [if_pos hstale]
    have hmain := (handleScan_open_branch st input w wid hin hw hid).2 _ hafter
    refine ⟨hmain, ?_, ?_⟩
    · intro r hr hrid
      rcases List.mem_map.mp hr with ⟨r0, _, rfl⟩
      by_cases h0 : r0.id = ac.id
      · simp [h0]
      · rw [if_neg h0] at hrid ⊢
        exact absurd hrid h0
    · rw [hmain]
      exact (checkHistory_result_shape _ w wid).1
  · intro hfresh
    exact (handleScan_open_branch st input w wid hin hw hid).1 ac hac hfresh

/-- Closed evaluation of `scan_autoclose_stale_open`: the open record of
`stC3`, twenty hours old, is auto-closed at checkin plus nine hours and the
scan then succeeds. -/
theorem scan_autoclose_stale_open_witness :
    handleScan stC3 "OPS1" =
      checkHistory
        { stC3 with
          db := closeRecord stC3.db 1 (50400000 + nineHoursInMillis) }
        wAlice "w1" ∧
    (handleScan stC3 "OPS1").1 = .scanSuccess ∧
    closeRecord stC3.db 1 (50400000 + nineHoursInMillis) =
      [{ id := 1, workerId := "w1", timestamp := 50400000,
         checkout_timestamp := some 82800000 }] := by
  refine ⟨?_, by decide, by decide⟩
  exact ((scan_autoclose_stale_open stC3 "OPS1" wAlice "w1"
    { id := 1, workerId := "w1", timestamp := 50400000, checkout_timestamp := none }
    (by decide) (by decide) (by decide) (by decide)).1 (by decide)).1

/-- C4 counterexample: with the most recent checkout at 08:00 of the current
day (`stC4`), a check-in attempt at 17:00:01 the same day does not succeed —
the same-calendar-day check, which runs before the cooldown check, rejects
it with `AlreadyCompletedToday`. -/
theorem scan_cooldown_boundary_cex :
    stC4.db = [{ id := 1, workerId := "w1", timestamp := 0,
                 checkout_timestamp := some 28800000 }] ∧
    stC4.now = 61201000 ∧
    sameLocalDay stC4.tzOffset 28800000 stC4.now = true ∧
    nineHoursInMillis ≤ stC4.now - 28800000 ∧
    handleScan stC4 "ops1" = (.alreadyCompletedToday, stC4) ∧
    (handleScan stC4 "ops1").1 ≠ .scanSuccess := by
  decide

/-- C4 (amended): a worker whose most recent checkout falls on the current
local calendar day is rejected with `AlreadyCompletedToday` at any time that
day — including 17:00:01 after an 08:00 checkout; when the most recent
checkout lies on an earlier calendar day the strict cooldown comparison
governs: elapsed strictly below nine hours fails with `CooldownActive` and
the remaining-time payload, elapsed of nine hours or more passes on to the
remaining checks. -/
theorem scan_same_day_then_strict_cooldown (st : ScanState) (input : String)
    (w : Worker) (wid : String) (c : Int)
    (hin : isBlank input = false)
    (hw : resolveWorker st.workers input = some w) (hid : w.id = some wid)
    (hopen : findActiveCheckin st.db wid = none)
    (hlast : lastCheckout st.db wid = some c) :
    (sameLocalDay st.tzOffset c st.now = true →
        handleScan st input = (.alreadyCompletedToday, st)) ∧
    (sameLocalDay st.tzOffset c st.now = false →
      (st.now - c < nineHoursInMillis →
          handleScan st input =
            (.cooldownActive ((nineHoursInMillis - (st.now - c)).fdiv 3600000)
              (ceilDivInt ((nineHoursInMillis - (st.now - c)) % 3600000) 60000),
             st)) ∧
      (nineHoursInMillis ≤ st.now - c →
          handleScan st input = checkDeptDup st w wid)) := by
  have hafter : scanStateAfterOpenCheck st wid = some st := by
    unfold scanStateAfterOpenCheck
    rw [hopen]
  have hmain := (handleScan_open_branch st input w wid hin hw hid).2 st hafter
  refine ⟨?_, ?_⟩
  · intro hsame
    rw [hmain]
    exact (checkHistory_cases st w wid).1 c hlast hsame
  · intro hsame
    refine ⟨?_, ?_⟩
    · intro hcool
      rw [hmain]
      exact (checkHistory_cases st w wid).2.1 c hlast hsame hcool
    · intro hpass
      rw [hmain]
      exact (checkHistory_cases st w wid).2.2 (Or.inr ⟨c, hlast, hsame, hpass⟩)

/-- Closed evaluation of `scan_same_day_then_strict_cooldown`: after a 23:00
checkout on day 0, a scan at 07:59 of day 1 fails with one minute of
cooldown left, and a scan at 08:00 sharp (exactly nine hours later) passes
the cooldown check and succeeds. -/
theorem scan_same_day_then_strict_cooldown_witness :
    handleScan stC4b "ops1" = (.cooldownActive 0 1, stC4b) ∧
    handleScan stC4c "ops1" = checkDeptDup stC4c wAlice "w1" ∧
    (handleScan stC4c "ops1").1 = .scanSuccess := by
  refine ⟨?_, ?_, by decide⟩
  · have h := ((scan_same_day_then_strict_cooldown stC4b "ops1" wAlice "w1"
      82800000 (by decide) (by decide) (by decide) (by decide) (by decide)).2
      (by decide)).1 (by decide)
    rw [h]
    decide
  · exact ((scan_same_day_then_strict_cooldown stC4c "ops1" wAlice "w1"
      82800000 (by decide) (by decide) (by decide) (by decide) (by decide)).2
      (by decide)).2 (by decide)

/-! ### Counting lemmas for the periodic aggregator -/

/-- Lookup in a counts object, one key at a time. -/
theorem lookupCount_cons (k : String) (v : Nat) (rest : List (String × Nat))
    (x : String) :
    lookupCount ((k, v) :: rest) x = if k = x then v else lookupCount rest x := by
  by_cases h : k = x
  · rw [if_pos h]
    unfold lookupCount
    rw [List.find?_cons_of_pos _ (by simpa using h)]
  · rw [if_neg h]
    unfold lookupCount
    rw [List.find?_cons_of_neg _ (by simpa using h)]

/-- Bumping a worker's count changes exactly that worker's lookup, by one. -/
theorem lookupCount_bump (c : List (String × Nat)) (wid x : String) :
    lookupCount (bumpCount c wid) x =
      lookupCount c x + (if x = wid then 1 else 0) := by
  induction c with
  | nil =>
    by_cases hx : x = wid
    · subst hx
      simp [bumpCount, lookupCount_cons, lookupCount]
    · rw [show bumpCount [] wid = [(wid, 1)] from rfl, lookupCount_cons,
        if_neg (fun h => hx (Eq.symm h))]
      simp [lookupCount, hx]
  | cons p rest ih =>
    obtain ⟨k, v⟩ := p
    by_cases hk : k = wid
    · subst hk
      rw [bumpCount, if_pos rfl, lookupCount_cons, lookupCount_cons]
      by_cases hx : k = x
      · rw [if_pos hx, if_pos hx, if_pos (Eq.symm hx)]
      · rw [if_neg hx, if_neg hx, if_neg (fun h => hx (Eq.symm h))]
        omega
    · rw [bumpCount, if_neg hk, lookupCount_cons, lookupCount_cons]
      by_cases hx : k = x
      · rw [if_pos hx, if_pos hx, if_neg (fun h => hk (hx.trans h))]
        omega
      · rw [if_neg hx, if_neg hx, ih]

/-- Keys of a bumped counts object: unchanged, or extended by the new key. -/
theorem bump_keys (c : List (String × Nat)) (wid : String) :
    (bumpCount c wid).map Prod.fst =
      if wid ∈ c.map Prod.fst then c.map Prod.fst
      else c.map Prod.fst ++ [wid] := by
  induction c with
  | nil => simp [bumpCount]
  | cons p rest ih =>
    obtain ⟨k, v⟩ := p
    by_cases hk : k = wid
    · subst hk
      simp [bumpCount]
    · rw [bumpCount, if_neg hk]
      simp only [List.map_cons]
      rw [ih]
      by_cases hm : wid ∈ rest.map Prod.fst
      · simp [hm, List.mem_cons]
      · have hnotin : wid ∉ k :: List.map Prod.fst rest := by
          intro hcon
          rcases List.mem_cons.mp hcon with h | h
          · exact hk (Eq.symm h)
          · exact hm h
        rw [if_neg hnotin, if_neg hm]
        rfl

/-- Bumping preserves distinct keys. -/
theorem nodup_bump (c : List (String × Nat)) (wid : String)
    (h : (c.map Prod.fst).Nodup) : ((bumpCount c wid).map Prod.fst).Nodup := by
  rw [bump_keys]
  by_cases hm : wid ∈ c.map Prod.fst
  · rwa [if_pos hm]
  · rw [if_neg hm]
    simp [List.nodup_append, h, hm]

/-- Bumping preserves the positivity of every stored count. -/
theorem pos_bump (c : List (String × Nat)) (wid : String)
    (h : ∀ p ∈ c, 0 < p.2) : ∀ p ∈ bumpCount c wid, 0 < p.2 := by
  induction c with
  | nil =>
    intro p hp
    rw [bumpCount] at hp
    rcases List.mem_singleton.mp hp with rfl
    exact Nat.one_pos
  | cons q rest ih =>
    obtain ⟨k, v⟩ := q
    by_cases hk : k = wid
    · subst hk
      rw [bumpCount, if_pos rfl]
      intro p hp
      rcases List.mem_cons.mp hp with rfl | hp2
      · exact Nat.succ_pos v
      · exact h p (List.mem_cons_of_mem _ hp2)
    · rw [bumpCount, if_neg hk]
      intro p hp
      rcases List.mem_cons.mp hp with rfl | hp2
      · exact h (k, v) (List.mem_cons_self _ _)
      · exact ih (fun q hq => h q (List.mem_cons_of_mem _ hq)) p hp2

/-- With distinct keys, lookup returns the stored count of any member. -/
theorem lookupCount_mem (c : List (String × Nat))
    (hnd : (c.map Prod.fst).Nodup) (p : String × Nat) (hp : p ∈ c) :
    lookupCount c p.1 = p.2 := by
  induction c with
  | nil => cases hp
  | cons q rest ih =>
    obtain ⟨k, v⟩ := q
    rw [lookupCount_cons]
    rcases List.mem_cons.mp hp with rfl | hp2
    · rw [if_pos rfl]
    · have hnd2 : (k :: rest.map Prod.fst).Nodup := by simpa using hnd
      have hknd := List.nodup_cons.mp hnd2
      have hk : k ≠ p.1 := by
        intro hkp
        exact hknd.1 (hkp ▸ List.mem_map_of_mem Prod.fst hp2)
      rw [if_neg hk]
      exact ih hknd.2 hp2

/-- With distinct keys and positive counts, a key is present exactly when its
lookup is positive. -/
theorem lookupCount_pos_iff (c : List (String × Nat))
    (hnd : (c.map Prod.fst).Nodup) (hpos : ∀ p ∈ c, 0 < p.2) (wid : String) :
    (∃ p ∈ c, p.1 = wid) ↔ 0 < lookupCount c wid := by
  constructor
  · rintro ⟨p, hp, rfl⟩
    rw [lookupCount_mem c hnd p hp]
    exact hpos p hp
  · intro h
    unfold lookupCount at h
    rcases hf : c.find? (fun p => p.1 == wid) with _ | p <;> rw [hf] at h
    · simp at h
    · exact ⟨p, List.mem_of_find?_eq_some hf, by simpa using List.find?_some hf⟩

/-- Folding a list of worker ids into the counts adds each id's multiplicity
to its lookup. -/
theorem lookupCount_foldl_bump (l : List String) (c : List (String × Nat))
    (x : String) :
    lookupCount (l.foldl bumpCount c) x = lookupCount c x + l.count x := by
  induction l generalizing c with
  | nil => simp
  | cons y l ih =>
    rw [List.foldl_cons, ih, lookupCount_bump, List.count_cons]
    by_cases hxy : x = y
    · subst hxy
      simp
      omega
    · have hyx : ¬y = x := fun h => hxy (Eq.symm h)
      simp [hxy, hyx]

/-- Folding worker ids preserves distinct keys. -/
theorem nodup_foldl_bump (l : List String) (c : List (String × Nat))
    (h : (c.map Prod.fst).Nodup) :
    (((l.foldl bumpCount c)).map Prod.fst).Nodup := by
  induction l generalizing c with
  | nil => exact h
  | cons y l ih => exact ih _ (nodup_bump c y h)

/-- Folding worker ids preserves positivity. -/
theorem pos_foldl_bump (l : List String) (c : List (String × Nat))
    (h : ∀ p ∈ c, 0 < p.2) :
    ∀ p ∈ l.foldl bumpCount c, 0 < p.2 := by
  induction l generalizing c with
  | nil => exact h
  | cons y l ih => exact ih _ (pos_bump c y h)

/-- Membership in a `Set.add` step. -/
theorem mem_addUnique (acc : List String) (y x : String) :
    x ∈ addUnique acc y ↔ x ∈ acc ∨ x = y := by
  unfold addUnique
  by_cases hc : acc.contains y
  · rw [if_pos hc]
    have hy : y ∈ acc := by simpa using hc
    constructor
    · exact Or.inl
    · rintro (h | rfl)
      · exact h
      · exact hy
  · rw [if_neg hc]
    simp [List.mem_append]

/-- `Set.add` preserves distinctness. -/
theorem nodup_addUnique (acc : List String) (y : String) (h : acc.Nodup) :
    (addUnique acc y).Nodup := by
  unfold addUnique
  by_cases hc : acc.contains y
  · rwa [if_pos hc]
  · rw [if_neg hc]
    have hy : y ∉ acc := by simpa using hc
    simp [List.nodup_append, h, hy]

/-- Membership after folding records into the per-session id set. -/
theorem sessionWorkerIds_go_mem (rs : List AttendanceRecord) (acc : List String)
    (x : String) :
    (x ∈ rs.foldl
        (fun acc r => if r.is_takeout then acc else addUnique acc r.workerId) acc) ↔
      x ∈ acc ∨ ∃ r ∈ rs, r.is_takeout = false ∧ r.workerId = x := by
  induction rs generalizing acc with
  | nil => simp
  | cons r rs ih =>
    rw [List.foldl_cons]
    by_cases ht : r.is_takeout
    · rw [if_pos ht, ih]
      constructor
      · rintro (h | ⟨r2, hr2, hr2t, hr2w⟩)
        · exact Or.inl h
        · exact Or.inr ⟨r2, List.mem_cons_of_mem _ hr2, hr2t, hr2w⟩
      · rintro (h | ⟨r2, hr2, hr2t, hr2w⟩)
        · exact Or.inl h
        · rcases List.mem_cons.mp hr2 with rfl | hr2m
          · rw [ht] at hr2t
            cases hr2t
          · exact Or.inr ⟨r2, hr2m, hr2t, hr2w⟩
    · rw [if_neg ht, ih]
      have htf : r.is_takeout = false := Bool.eq_false_iff.mpr ht
      rw [mem_addUnique]
      constructor
      · rintro ((h | rfl) | ⟨r2, hr2, hr2t, hr2w⟩)
        · exact Or.inl h
        · exact Or.inr ⟨r, List.mem_cons_self _ _, htf, rfl⟩
        · exact Or.inr ⟨r2, List.mem_cons_of_mem _ hr2, hr2t, hr2w⟩
      · rintro (h | ⟨r2, hr2, hr2t, hr2w⟩)
        · exact Or.inl (Or.inl h)
        · rcases List.mem_cons.mp hr2 with rfl | hr2m
          · exact Or.inl (Or.inr hr2w.symm)
          · exact Or.inr ⟨r2, hr2m, hr2t, hr2w⟩

/-- Distinctness after folding records into the per-session id set. -/
theorem sessionWorkerIds_go_nodup (rs : List AttendanceRecord) (acc : List String)
    (h : acc.Nodup) :
    (rs.foldl
      (fun acc r => if r.is_takeout then acc else addUnique acc r.workerId) acc).Nodup := by
  induction rs generalizing acc with
  | nil => exact h
  | cons r rs ih =>
    rw [List.foldl_cons]
    by_cases ht : r.is_takeout
    · rw [if_pos ht]
      exact ih _ h
    · rw [if_neg ht]
      exact ih _ (nodup_addUnique acc r.workerId h)

/-- The per-session id set holds exactly the workers with a non-takeout
record. -/
theorem mem_sessionWorkerIds (rs : List AttendanceRecord) (x : String) :
    x ∈ sessionWorkerIds rs ↔ ∃ r ∈ rs, r.is_takeout = false ∧ r.workerId = x := by
  rw [sessionWorkerIds, sessionWorkerIds_go_mem]
  simp

/-- The per-session id set is duplicate-free. -/
theorem nodup_sessionWorkerIds (rs : List AttendanceRecord) :
    (sessionWorkerIds rs).Nodup :=
  sessionWorkerIds_go_nodup rs [] List.nodup_nil

/-- `qualifies` unfolded to the record-level condition. -/
theorem qualifies_iff (x : String) (s : AttendanceSession) :
    qualifies x s = true ↔ ∃ r ∈ s.records, r.is_takeout = false ∧ r.workerId = x := by
  simp [qualifies, List.any_eq_true, Bool.and_eq_true]

/-- Each session contributes its id-set multiplicity: one for a qualifying
worker, zero otherwise. -/
theorem count_sessionWorkerIds (s : AttendanceSession) (x : String) :
    (sessionWorkerIds s.records).count x = if qualifies x s then 1 else 0 := by
  by_cases hq : qualifies x s
  · rw [if_pos hq]
    exact List.count_eq_one_of_mem (nodup_sessionWorkerIds s.records)
      ((mem_sessionWorkerIds s.records x).mpr ((qualifies_iff x s).mp hq))
  · rw [if_neg hq]
    refine List.count_eq_zero.mpr ?_
    intro hmem
    exact hq ((qualifies_iff x s).mpr ((mem_sessionWorkerIds s.records x).mp hmem))

/-- The counts object after the session loop: each worker's lookup is the
number of qualifying sessions. -/
theorem lookupCount_attendanceCounts_go (ss : List AttendanceSession)
    (c : List (String × Nat)) (x : String) :
    lookupCount
        (ss.foldl (fun counts s => (sessionWorkerIds s.records).foldl bumpCount counts) c)
        x =
      lookupCount c x + ss.countP (qualifies x) := by
  induction ss generalizing c with
  | nil => simp
  | cons s ss ih =>
    rw [List.foldl_cons, ih, lookupCount_foldl_bump, count_sessionWorkerIds,
      List.countP_cons]
    by_cases hq : qualifies x s <;> simp [hq] <;> omega

/-- `attendanceCounts` computes the per-worker number of qualifying
sessions. -/
theorem lookupCount_attendanceCounts (ss : List AttendanceSession) (x : String) :
    lookupCount (attendanceCounts ss) x = ss.countP (qualifies x) := by
  rw [attendanceCounts, lookupCount_attendanceCounts_go]
  simp [lookupCount]

/-- The counts object has distinct keys. -/
theorem attendanceCounts_nodup (ss : List AttendanceSession) :
    ((attendanceCounts ss).map Prod.fst).Nodup := by
  rw [attendanceCounts]
  have hgen : ∀ c : List (String × Nat), (c.map Prod.fst).Nodup →
      ((ss.foldl (fun counts s => (sessionWorkerIds s.records).foldl bumpCount counts)
        c).map Prod.fst).Nodup := by
    induction ss with
    | nil => exact fun c h => h
    | cons s ss ih =>
      intro c h
      rw [List.foldl_cons]
      exact ih _ (nodup_foldl_bump _ c h)
  exact hgen [] (by simp)

/-- The counts object stores only positive counts. -/
theorem attendanceCounts_pos (ss : List AttendanceSession) :
    ∀ p ∈ attendanceCounts ss, 0 < p.2 := by
  rw [attendanceCounts]
  have hgen : ∀ c : List (String × Nat), (∀ p ∈ c, 0 < p.2) →
      ∀ p ∈ ss.foldl (fun counts s => (sessionWorkerIds s.records).foldl bumpCount counts) c,
        0 < p.2 := by
    induction ss with
    | nil => exact fun c h => h
    | cons s ss ih =>
      intro c h
      rw [List.foldl_cons]
      exact ih _ (pos_foldl_bump _ c h)
  exact hgen [] (by simp)

/-- Membership through descending insertion. -/
theorem mem_insertDesc (e x : ReportEntry) (l : List ReportEntry) :
    x ∈ insertDesc e l ↔ x = e ∨ x ∈ l := by
  induction l with
  | nil => simp [insertDesc]
  | cons y ys ih =>
    rw [insertDesc]
    by_cases h : y.attendanceCount ≤ e.attendanceCount
    · rw [if_pos h]
      simp [List.mem_cons]
    · rw [if_neg h]
      rw [List.mem_cons, ih, List.mem_cons]
      tauto

/-- Membership through the descending sort. -/
theorem mem_sortByCountDesc (x : ReportEntry) (l : List ReportEntry) :
    x ∈ sortByCountDesc l ↔ x ∈ l := by
  induction l with
  | nil => simp [sortByCountDesc]
  | cons y ys ih =>
    rw [sortByCountDesc, mem_insertDesc, ih, List.mem_cons]

/-- Descending insertion preserves the descending order. -/
theorem pairwise_insertDesc (e : ReportEntry) (l : List ReportEntry)
    (h : l.Pairwise (fun x y => y.attendanceCount ≤ x.attendanceCount)) :
    (insertDesc e l).Pairwise (fun x y => y.attendanceCount ≤ x.attendanceCount) := by
  induction l with
  | nil => simp [insertDesc]
  | cons y ys ih =>
    rw [insertDesc]
    rcases List.pairwise_cons.mp h with ⟨hy, hys⟩
    by_cases hc : y.attendanceCount ≤ e.attendanceCount
    · rw [if_pos hc]
      refine List.pairwise_cons.mpr ⟨?_, h⟩
      intro z hz
      rcases List.mem_cons.mp hz with rfl | hzm
      · exact hc
      · exact le_trans (hy z hzm) hc
    · rw [if_neg hc]
      refine List.pairwise_cons.mpr ⟨?_, ih hys⟩
      intro z hz
      rcases (mem_insertDesc e z ys).mp hz with rfl | hzm
      · exact le_of_lt (lt_of_not_le hc)
      · exact hy z hzm

/-- The report sort produces a descending attendance-count order. -/
theorem pairwise_sortByCountDesc (l : List ReportEntry) :
    (sortByCountDesc l).Pairwise (fun x y => y.attendanceCount ≤ x.attendanceCount) := by
  induction l with
  | nil => simp [sortByCountDesc]
  | cons y ys ih => exact pairwise_insertDesc y (sortByCountDesc ys) ih

/-- Core shape of both report revisions: entries carry the looked-up counts,
presence coincides with a positive count, and the output is sorted
descending. -/
theorem report_core (counts : List (String × Nat)) (mk : String × Nat → ReportEntry)
    (hnd : (counts.map Prod.fst).Nodup) (hpos : ∀ p ∈ counts, 0 < p.2)
    (hmk1 : ∀ p, (mk p).workerId = p.1) (hmk2 : ∀ p, (mk p).attendanceCount = p.2) :
    (∀ e ∈ sortByCountDesc (counts.map mk),
        e.attendanceCount = lookupCount counts e.workerId) ∧
    (∀ wid, (∃ e ∈ sortByCountDesc (counts.map mk), e.workerId = wid) ↔
        0 < lookupCount counts wid) ∧
    (sortByCountDesc (counts.map mk)).Pairwise
      (fun x y => y.attendanceCount ≤ x.attendanceCount) := by
  refine ⟨?_, ?_, pairwise_sortByCountDesc _⟩
  · intro e he
    rw [mem_sortByCountDesc] at he
    rcases List.mem_map.mp he with ⟨p, hp, rfl⟩
    rw [hmk1, hmk2, lookupCount_mem counts hnd p hp]
  · intro wid
    constructor
    · rintro ⟨e, he, rfl⟩
      rw [mem_sortByCountDesc] at he
      rcases List.mem_map.mp he with ⟨p, hp, rfl⟩
      rw [hmk1, lookupCount_mem counts hnd p hp]
      exact hpos p hp
    · intro h
      rcases (lookupCount_pos_iff counts hnd hpos wid).mpr h with ⟨p, hp, hw⟩
      exact ⟨mk p, (mem_sortByCountDesc _ _).mpr (List.mem_map_of_mem mk hp),
        by rw [hmk1, hw]⟩

/-- C6: for every session set and closed date interval, both revisions of
the periodic aggregator report, per worker, the number of in-interval
sessions holding at least one non-takeout record for that worker — counting
a worker at most once per session and never counting takeout records — and
sort the report by descending count. -/
theorem periodic_report_counts_and_sorted (sessions : List AttendanceSession)
    (workers : List Worker) (startDate endDate : Int) :
    (∀ e ∈ generatePeriodicReport sessions workers startDate endDate,
        e.attendanceCount = specCount sessions startDate endDate e.workerId) ∧
    (∀ wid,
        (∃ e ∈ generatePeriodicReport sessions workers startDate endDate,
            e.workerId = wid) ↔
          0 < specCount sessions startDate endDate wid) ∧
    (generatePeriodicReport sessions workers startDate endDate).Pairwise
      (fun x y => y.attendanceCount ≤ x.attendanceCount) ∧
    (∀ e ∈ generatePeriodicReportV2 sessions workers startDate endDate,
        e.attendanceCount = specCount sessions startDate endDate e.workerId) ∧
    (∀ wid,
        (∃ e ∈ generatePeriodicReportV2 sessions workers startDate endDate,
            e.workerId = wid) ↔
          0 < specCount sessions startDate endDate wid) ∧
    (generatePeriodicReportV2 sessions workers startDate endDate).Pairwise
      (fun x y => y.attendanceCount ≤ x.attendanceCount) := by
  have hspec : ∀ wid,
      lookupCount (attendanceCounts (relevantSessions sessions startDate endDate)) wid =
        specCount sessions startDate endDate wid := by
    intro wid
    rw [lookupCount_attendanceCounts]
    rfl
  have h1 := report_core (attendanceCounts (relevantSessions sessions startDate endDate))
    (fun p =>
      { workerId := p.1,
        opsId := orDefault
          (match workers.find? (fun w => w.id == some p.1) with
           | some w => w.opsId | none => "") "N/A",
        fullName := orDefault
          (match workers.find? (fun w => w.id == some p.1) with
           | some w => w.fullName | none => "") "Unknown",
        attendanceCount := p.2 })
    (attendanceCounts_nodup _) (attendanceCounts_pos _)
    (fun p => rfl) (fun p => rfl)
  have h2 := report_core (attendanceCounts (relevantSessions sessions startDate endDate))
    (fun p =>
      { workerId := p.1,
        opsId := (resolveDisplayV2
          (workerDetails (relevantSessions sessions startDate endDate)) workers p.1).1,
        fullName := (resolveDisplayV2
          (workerDetails (relevantSessions sessions startDate endDate)) workers p.1).2,
        attendanceCount := p.2 })
    (attendanceCounts_nodup _) (attendanceCounts_pos _)
    (fun p => rfl) (fun p => rfl)
  refine ⟨?_, ?_, ?_, ?_, ?_, ?_⟩
  · intro e he
    rw [← hspec]
    exact h1.1 e he
  · intro wid
    rw [← hspec]
    exact h1.2.1 wid
  · exact h1.2.2
  · intro e he
    rw [← hspec]
    exact h2.1 e he
  · intro wid
    rw [← hspec]
    exact h2.2.1 wid
  · exact h2.2.2

/-- Closed evaluation of `periodic_report_counts_and_sorted`: with a session
holding a duplicated worker and a takeout record plus an out-of-range
session, worker `w1` is counted once and the takeout worker not at all. -/
theorem periodic_report_counts_witness :
    ({ workerId := "w1", opsId := "N/A", fullName := "Unknown",
       attendanceCount := 1 } : ReportEntry).attendanceCount =
      specCount [sC6a, sC6b] 0 10 "w1" ∧
    ¬(0 < specCount [sC6a, sC6b] 0 10 "w2") := by
  refine ⟨(periodic_report_counts_and_sorted [sC6a, sC6b] [] 0 10).1 _ (by decide),
    by decide⟩

/-- C7 counterexample: in the `Dashboard.tsx` revision the record of session
`sC7` embeds opsId `OPS1` and name `Alice`, the worker is absent from the
registry, yet the report line shows `N/A` / `Unknown` — the claimed
record-embedded preference does not happen in this revision. -/
theorem periodic_report_registry_only_cex :
    sC7.records = [rAlice1] ∧
    rAlice1.opsId = "OPS1" ∧ rAlice1.fullName = "Alice" ∧
    generatePeriodicReport [sC7] [] 0 10 =
      [{ workerId := "w1", opsId := "N/A", fullName := "Unknown",
         attendanceCount := 1 }] ∧
    (∀ e ∈ generatePeriodicReport [sC7] [] 0 10,
        e.opsId ≠ "OPS1" ∧ e.fullName ≠ "Alice") := by
  decide

/-- Lookup in a details object, one key at a time. -/
theorem lookupDetail_cons (q : String × String × String)
    (rest : List (String × String × String)) (wid : String) :
    lookupDetail (q :: rest) wid =
      if q.1 = wid then some q.2 else lookupDetail rest wid := by
  by_cases h : q.1 = wid
  · rw [if_pos h]
    unfold lookupDetail
    rw [List.find?_cons_of_pos _ (by simpa using h)]
  · rw [if_neg h]
    unfold lookupDetail
    rw [List.find?_cons_of_neg _ (by simpa using h)]

/-- Appending a fresh triple can only add that triple to the lookups. -/
theorem lookupDetail_append_single (d : List (String × String × String))
    (t : String × String × String) (wid o f : String)
    (h : lookupDetail (d ++ [t]) wid = some (o, f)) :
    lookupDetail d wid = some (o, f) ∨ (t.1 = wid ∧ o = t.2.1 ∧ f = t.2.2) := by
  induction d with
  | nil =>
    rw [List.nil_append, lookupDetail_cons] at h
    by_cases ht : t.1 = wid
    · rw [if_pos ht] at h
      injection h with h
      exact Or.inr ⟨ht, by rw [h], by rw [h]⟩
    · rw [if_neg ht] at h
      simp [lookupDetail] at h
  | cons q rest ih =>
    rw [List.cons_append, lookupDetail_cons] at h
    rw [lookupDetail_cons]
    by_cases hq : q.1 = wid
    · rw [if_pos hq] at h ⊢
      exact Or.inl h
    · rw [if_neg hq] at h ⊢
      exact ih h

/-- Replacing a worker's triple can only substitute the record's values. -/
theorem lookupDetail_replace (d : List (String × String × String))
    (r : AttendanceRecord) (wid o f : String)
    (h : lookupDetail
        (d.map (fun q =>
          if q.1 == r.workerId then (r.workerId, r.opsId, r.fullName) else q))
        wid = some (o, f)) :
    lookupDetail d wid = some (o, f) ∨
      (r.workerId = wid ∧ o = r.opsId ∧ f = r.fullName) := by
  induction d with
  | nil => simp [lookupDetail] at h
  | cons q rest ih =>
    rw [List.map_cons] at h
    by_cases hq : q.1 = r.workerId
    · rw [show (if q.1 == r.workerId then (r.workerId, r.opsId, r.fullName) else q) =
          (r.workerId, r.opsId, r.fullName) from by simp [hq]] at h
      rw [lookupDetail_cons] at h
      rw [lookupDetail_cons]
      by_cases hw : r.workerId = wid
      · rw [if_pos hw] at h
        injection h with h
        injection h with h1 h2
        exact Or.inr ⟨hw, h1.symm, h2.symm⟩
      · rw [if_neg hw] at h
        rw [if_neg (by rw [hq]; exact hw)]
        exact ih h
    · rw [show (if q.1 == r.workerId then (r.workerId, r.opsId, r.fullName) else q) =
          q from by simp [hq]] at h
      rw [lookupDetail_cons] at h
      rw [lookupDetail_cons]
      by_cases hw : q.1 = wid
      · rw [if_pos hw] at h ⊢
        exact Or.inl h
      · rw [if_neg hw] at h ⊢
        exact ih h

/-- A remembered detail comes from the update step or from an actual
non-takeout record. -/
theorem lookupDetail_updDetail (d : List (String × String × String))
    (r : AttendanceRecord) (wid o f : String)
    (h : lookupDetail (updDetail d r) wid = some (o, f)) :
    lookupDetail d wid = some (o, f) ∨
      (r.workerId = wid ∧ o = r.opsId ∧ f = r.fullName) := by
  unfold updDetail at h
  rcases hf : d.find? (fun p => p.1 == r.workerId) with _ | p <;>
    rw [hf] at h <;> simp only [] at h
  · rcases lookupDetail_append_single d _ wid o f h with h1 | h1
    · exact Or.inl h1
    · exact Or.inr h1
  · by_cases hu : p.2.2 = "Unknown"
    · rw [if_pos hu] at h
      exact lookupDetail_replace d r wid o f h
    · rw [if_neg hu] at h
      exact Or.inl h

/-- Folding a session's records into the details: every remembered value
comes from a non-takeout record of the fold. -/
theorem workerDetails_go_origin (rs : List AttendanceRecord)
    (d : List (String × String × String)) (wid o f : String)
    (h : lookupDetail
        (rs.foldl (fun d r => if r.is_takeout then d else updDetail d r) d)
        wid = some (o, f)) :
    lookupDetail d wid = some (o, f) ∨
      ∃ r ∈ rs, r.is_takeout = false ∧ r.workerId = wid ∧
        r.opsId = o ∧ r.fullName = f := by
  induction rs generalizing d with
  | nil => exact Or.inl h
  | cons r rs ih =>
    rw [List.foldl_cons] at h
    by_cases ht : r.is_takeout
    · rw [if_pos ht] at h
      rcases ih _ h with h1 | ⟨r2, hm, hprops⟩
      · exact Or.inl h1
      · exact Or.inr ⟨r2, List.mem_cons_of_mem _ hm, hprops⟩
    · rw [if_neg ht] at h
      rcases ih _ h with h1 | ⟨r2, hm, hprops⟩
      · rcases lookupDetail_updDetail d r wid o f h1 with h2 | ⟨hw, ho, hf2⟩
        · exact Or.inl h2
        · exact Or.inr ⟨r, List.mem_cons_self _ _, Bool.eq_false_iff.mpr ht, hw,
            ho.symm, hf2.symm⟩
      · exact Or.inr ⟨r2, List.mem_cons_of_mem _ hm, hprops⟩

/-- Folding sessions into the details: every remembered value comes from a
non-takeout record of one of the folded sessions. -/
theorem workerDetails_fold_origin (ss : List AttendanceSession)
    (wid o f : String) :
    ∀ d, lookupDetail
        (ss.foldl (fun d s =>
          s.records.foldl (fun d r => if r.is_takeout then d else updDetail d r) d) d)
        wid = some (o, f) →
      lookupDetail d wid = some (o, f) ∨
        ∃ s ∈ ss, ∃ r ∈ s.records, r.is_takeout = false ∧ r.workerId = wid ∧
          r.opsId = o ∧ r.fullName = f := by
  induction ss with
  | nil => exact fun d hd => Or.inl hd
  | cons s ss ih =>
    intro d hd
    rw [List.foldl_cons] at hd
    rcases ih (s.records.foldl
        (fun d r => if r.is_takeout then d else updDetail d r) d) hd with
      h1 | ⟨s2, hm, hprops⟩
    · rcases workerDetails_go_origin s.records d wid o f h1 with h2 | ⟨r, hr, hprops⟩
      · exact Or.inl h2
      · exact Or.inr ⟨s, List.mem_cons_self _ _, r, hr, hprops⟩
    · exact Or.inr ⟨s2, List.mem_cons_of_mem _ hm, hprops⟩

/-- Every remembered detail of `workerDetails` is embedded in an actual
non-takeout record of one of the sessions. -/
theorem workerDetails_origin (ss : List AttendanceSession) (wid o f : String)
    (h : lookupDetail (workerDetails ss) wid = some (o, f)) :
    ∃ s ∈ ss, ∃ r ∈ s.records, r.is_takeout = false ∧ r.workerId = wid ∧
      r.opsId = o ∧ r.fullName = f := by
  rcases workerDetails_fold_origin ss wid o f []
      (by simpa [workerDetails] using h) with h1 | h1
  · simp [lookupDetail] at h1
  · exact h1

/-- With a complete, non-`Unknown` remembered detail, the `part_002`
resolution returns the record-embedded values. -/
theorem resolveDisplayV2_prefers_record (details : List (String × String × String))
    (workers : List Worker) (wid o f : String)
    (hd : lookupDetail details wid = some (o, f))
    (ho : o ≠ "") (hf : f ≠ "") (hu : f ≠ "Unknown") :
    resolveDisplayV2 details workers wid = (o, f) := by
  unfold resolveDisplayV2
  rw [hd]
  simp only []
  rw [if_neg (by simp [ho, hf, hu])]
  simp [orDefault, ho, hf]

/-- With no remembered detail, the `part_002` resolution falls back to the
live registry. -/
theorem resolveDisplayV2_fallback_registry (details : List (String × String × String))
    (workers : List Worker) (wid : String) (w : Worker)
    (hd : lookupDetail details wid = none)
    (hw : workers.find? (fun w => w.id == some wid) = some w)
    (ho : w.opsId ≠ "") (hf : w.fullName ≠ "") :
    resolveDisplayV2 details workers wid = (w.opsId, w.fullName) := by
  unfold resolveDisplayV2
  rw [hd]
  simp only []
  rw [if_pos (by simp), hw]
  simp [orDefault, ho, hf]

/-- With neither source resolving, the `part_002` resolution defaults to
`N/A` / `Unknown`. -/
theorem resolveDisplayV2_defaults (details : List (String × String × String))
    (workers : List Worker) (wid : String)
    (hd : lookupDetail details wid = none)
    (hw : workers.find? (fun w => w.id == some wid) = none) :
    resolveDisplayV2 details workers wid = ("N/A", "Unknown") := by
  unfold resolveDisplayV2
  rw [hd]
  simp only []
  rw [if_pos (by simp), hw]
  simp [orDefault]

/-- Every entry of the `part_002` report carries the display pair produced
by `resolveDisplayV2` for its worker. -/
theorem reportV2_entry_display (sessions : List AttendanceSession)
    (workers : List Worker) (startDate endDate : Int) :
    ∀ e ∈ generatePeriodicReportV2 sessions workers startDate endDate,
      (e.opsId, e.fullName) =
        resolveDisplayV2 (workerDetails (relevantSessions sessions startDate endDate))
          workers e.workerId := by
  intro e he
  rcases List.mem_map.mp ((mem_sortByCountDesc e _).mp he) with ⟨p, hp, rfl⟩
  rfl

/-- Every entry of the `Dashboard.tsx` report resolves its display values
from the live registry only. -/
theorem reportV1_entry_display (sessions : List AttendanceSession)
    (workers : List Worker) (startDate endDate : Int) :
    ∀ e ∈ generatePeriodicReport sessions workers startDate endDate,
      e.opsId = orDefault
        (match workers.find? (fun w => w.id == some e.workerId) with
         | some w => w.opsId | none => "") "N/A" ∧
      e.fullName = orDefault
        (match workers.find? (fun w => w.id == some e.workerId) with
         | some w => w.fullName | none => "") "Unknown" := by
  intro e he
  rcases List.mem_map.mp ((mem_sortByCountDesc e _).mp he) with ⟨p, hp, rfl⟩
  exact ⟨rfl, rfl⟩

/-- C7 (amended): the two revisions resolve display values differently.  In
the `part_002` revision each counted worker's opsId and name prefer the
values embedded in that worker's attendance records — so a worker deleted
from the registry still reports the recorded values — falling back to the
live registry and defaulting to `N/A` / `Unknown`; in the `Dashboard.tsx`
revision the values come from the live registry alone, with the same
defaults. -/
theorem periodic_report_name_resolution_versions (sessions : List AttendanceSession)
    (workers : List Worker) (startDate endDate : Int) :
    (∀ e ∈ generatePeriodicReportV2 sessions workers startDate endDate, ∀ o f,
        lookupDetail (workerDetails (relevantSessions sessions startDate endDate))
          e.workerId = some (o, f) →
        o ≠ "" → f ≠ "" → f ≠ "Unknown" →
        e.opsId = o ∧ e.fullName = f ∧
        ∃ s ∈ relevantSessions sessions startDate endDate, ∃ r ∈ s.records,
          r.is_takeout = false ∧ r.workerId = e.workerId ∧
          r.opsId = o ∧ r.fullName = f) ∧
    (∀ e ∈ generatePeriodicReportV2 sessions workers startDate endDate, ∀ w,
        lookupDetail (workerDetails (relevantSessions sessions startDate endDate))
          e.workerId = none →
        workers.find? (fun w => w.id == some e.workerId) = some w →
        w.opsId ≠ "" → w.fullName ≠ "" →
        e.opsId = w.opsId ∧ e.fullName = w.fullName) ∧
    (∀ e ∈ generatePeriodicReportV2 sessions workers startDate endDate,
        lookupDetail (workerDetails (relevantSessions sessions startDate endDate))
          e.workerId = none →
        workers.find? (fun w => w.id == some e.workerId) = none →
        e.opsId = "N/A" ∧ e.fullName = "Unknown") ∧
    (∀ e ∈ generatePeriodicReport sessions workers startDate endDate,
        e.opsId = orDefault
          (match workers.find? (fun w => w.id == some e.workerId) with
           | some w => w.opsId | none => "") "N/A" ∧
        e.fullName = orDefault
          (match workers.find? (fun w => w.id == some e.workerId) with
           | some w => w.fullName | none => "") "Unknown") := by
  refine ⟨?_, ?_, ?_, reportV1_entry_display sessions workers startDate endDate⟩
  · intro e he o f hd ho hf hu
    have hdisp := reportV2_entry_display sessions workers startDate endDate e he
    rw [resolveDisplayV2_prefers_record _ workers e.workerId o f hd ho hf hu] at hdisp
    injection hdisp with h1 h2
    exact ⟨h1, h2, workerDetails_origin _ e.workerId o f hd⟩
  · intro e he w hd hw ho hf
    have hdisp := reportV2_entry_display sessions workers startDate endDate e he
    rw [resolveDisplayV2_fallback_registry _ workers e.workerId w hd hw ho hf] at hdisp
    injection hdisp with h1 h2
    exact ⟨h1, h2⟩
  · intro e he hd hw
    have hdisp := reportV2_entry_display sessions workers startDate endDate e he
    rw [resolveDisplayV2_defaults _ workers e.workerId hd hw] at hdisp
    injection hdisp with h1 h2
    exact ⟨h1, h2⟩

/-- Closed evaluation of `periodic_report_name_resolution_versions`: with an
empty registry, the `part_002` report line for `w1` keeps the recorded
`OPS1` / `Alice` values, which come from the record of session `sC7`. -/
theorem periodic_report_name_resolution_versions_witness :
    ({ workerId := "w1", opsId := "OPS1", fullName := "Alice",
       attendanceCount := 1 } : ReportEntry).opsId = "OPS1" ∧
    ({ workerId := "w1", opsId := "OPS1", fullName := "Alice",
       attendanceCount := 1 } : ReportEntry).fullName = "Alice" ∧
    ∃ s ∈ relevantSessions [sC7] 0 10, ∃ r ∈ s.records,
      r.is_takeout = false ∧ r.workerId = "w1" ∧
      r.opsId = "OPS1" ∧ r.fullName = "Alice" := by
  exact (periodic_report_name_resolution_versions [sC7] [] 0 10).1
    { workerId := "w1", opsId := "OPS1", fullName := "Alice", attendanceCount := 1 }
    (by decide) "OPS1" "Alice" (by decide) (by decide) (by decide) (by decide)

/-! ### Scan-only reachability (C8) -/

/-- A worker resolved from some input is also resolved from their own
opsId (case-insensitive resolution depends only on the folded input). -/
theorem resolveWorker_self (ws : List Worker) (input : String) (w : Worker)
    (h : resolveWorker ws input = some w) : resolveWorker ws w.opsId = some w := by
  unfold resolveWorker at h ⊢
  have hp := List.find?_some h
  simp only [Bool.and_eq_true, beq_iff_eq] at hp
  have hfun : (fun x : Worker =>
      (lowerStr x.opsId == lowerStr w.opsId) && (x.status == WorkerStatus.active)) =
      (fun x : Worker =>
      (lowerStr x.opsId == lowerStr input) && (x.status == WorkerStatus.active)) := by
    funext x
    rw [hp.1]
  rw [hfun]
  exact h

/-- The open-record lookup succeeds only on an open record of the worker. -/
theorem findActiveCheckin_some (db : List PersistedRecord) (wid : String)
    (ac : PersistedRecord) (h : findActiveCheckin db wid = some ac) :
    ac ∈ db ∧ ac.workerId = wid ∧ ac.checkout_timestamp = none := by
  refine ⟨List.mem_of_find?_eq_some h, ?_⟩
  have hp := List.find?_some h
  simp only [Bool.and_eq_true, beq_iff_eq, Option.isNone_iff_eq_none] at hp
  exact hp

/-- The open-record lookup fails exactly when the worker has no open
record. -/
theorem findActiveCheckin_none_iff (db : List PersistedRecord) (wid : String) :
    findActiveCheckin db wid = none ↔
      ∀ r ∈ db, r.workerId = wid → r.checkout_timestamp ≠ none := by
  unfold findActiveCheckin
  rw [List.find?_eq_none]
  constructor
  · intro h r hr hw hco
    exact h r hr (by simp [hw, hco])
  · intro h r hr
    simp only [Bool.and_eq_true, beq_iff_eq, Option.isNone_iff_eq_none, not_and]
    intro hw
    exact h r hr hw

/-- Auto-closing does not change the row ids. -/
theorem closeRecord_ids (db : List PersistedRecord) (rid : Nat) (t : Int) :
    (closeRecord db rid t).map (fun r => r.id) = db.map (fun r => r.id) := by
  unfold closeRecord
  rw [List.map_map]
  apply List.map_congr_left
  intro r _
  by_cases h : r.id = rid <;> simp [h]

/-- Auto-closing never creates a new open record. -/
theorem openConflictFree_closeRecord (db : List PersistedRecord) (rid : Nat)
    (t : Int) (h : OpenConflictFree db) :
    OpenConflictFree (closeRecord db rid t) := by
  unfold OpenConflictFree closeRecord
  rw [List.pairwise_map]
  refine h.imp ?_
  intro a b hab hcon
  apply hab
  by_cases ha : a.id = rid <;> by_cases hb : b.id = rid <;>
    simp [ha, hb] at hcon <;> tauto

/-- Row-id distinctness and open-conflict freedom survive auto-closing. -/
theorem dbWF_closeRecord (db : List PersistedRecord) (rid : Nat) (t : Int)
    (h : DbWF db) : DbWF (closeRecord db rid t) :=
  ⟨by rw [closeRecord_ids]; exact h.1, openConflictFree_closeRecord db rid t h.2⟩

/-- A worker with no open record still has none after any auto-close. -/
theorem findActiveCheckin_closeRecord_none (db : List PersistedRecord)
    (rid : Nat) (t : Int) (wid : String)
    (h : findActiveCheckin db wid = none) :
    findActiveCheckin (closeRecord db rid t) wid = none := by
  rw [findActiveCheckin_none_iff] at h ⊢
  intro r hr hw
  unfold closeRecord at hr
  rcases List.mem_map.mp hr with ⟨r0, hr0, rfl⟩
  by_cases h0 : r0.id = rid
  · simp [h0]
  · rw [if_neg h0] at hw ⊢
    exact h r0 hr0 hw

/-- With distinct row ids, two stored records sharing an id are the same
record. -/
theorem idsNodup_unique (db : List PersistedRecord)
    (hnd : (db.map (fun r => r.id)).Nodup) (r1 r2 : PersistedRecord)
    (h1 : r1 ∈ db) (h2 : r2 ∈ db) (heq : r1.id = r2.id) : r1 = r2 := by
  by_cases hr : r1 = r2
  · exact hr
  · exfalso
    have hpw : db.Pairwise (fun a b => a.id ≠ b.id) := List.pairwise_map.mp hnd
    have hsym : Symmetric (fun a b : PersistedRecord => a.id ≠ b.id) :=
      fun a b hab he => hab he.symm
    exact hpw.forall hsym h1 h2 hr heq

/-- Open-conflict freedom: two open records of one worker coincide. -/
theorem openConflictFree_unique (db : List PersistedRecord)
    (h : OpenConflictFree db) (a b : PersistedRecord) (ha : a ∈ db) (hb : b ∈ db)
    (hw : a.workerId = b.workerId) (hao : a.checkout_timestamp = none)
    (hbo : b.checkout_timestamp = none) : a = b := by
  by_cases hab : a = b
  · exact hab
  · exfalso
    have hsym : Symmetric (fun x y : PersistedRecord =>
        ¬(x.workerId = y.workerId ∧ x.checkout_timestamp = none ∧
          y.checkout_timestamp = none)) := by
      intro x y hxy hcon
      exact hxy ⟨hcon.1.symm, hcon.2.2, hcon.2.1⟩
    exact h.forall hsym ha hb hab ⟨hw, hao, hbo⟩

/-- Auto-closing the unique open record of a worker leaves them with no open
record. -/
theorem findActiveCheckin_closeRecord_self (db : List PersistedRecord)
    (wid : String) (ac : PersistedRecord) (t : Int)
    (hoc : OpenConflictFree db) (hac : findActiveCheckin db wid = some ac) :
    findActiveCheckin (closeRecord db ac.id t) wid = none := by
  obtain ⟨hmem, hw, ho⟩ := findActiveCheckin_some db wid ac hac
  rw [findActiveCheckin_none_iff]
  intro r hr hrw
  unfold closeRecord at hr
  rcases List.mem_map.mp hr with ⟨r0, hr0, rfl⟩
  by_cases h0 : r0.id = ac.id
  · simp [h0]
  · rw [if_neg h0] at hrw ⊢
    intro hro
    exact h0 (congrArg (fun r => r.id)
      (openConflictFree_unique db hoc r0 ac hr0 hmem (by rw [hrw, hw]) hro ho))

/-- Closing a row of a different worker leaves the checkout projection of
this worker untouched. -/
theorem filterMap_closeRecord (db : List PersistedRecord) (rid : Nat) (t : Int)
    (wid : String) :
    (∀ r ∈ db, r.id = rid → r.workerId ≠ wid) →
    (closeRecord db rid t).filterMap
        (fun r => if r.workerId = wid then r.checkout_timestamp else none) =
      db.filterMap
        (fun r => if r.workerId = wid then r.checkout_timestamp else none) := by
  induction db with
  | nil => intro _; rfl
  | cons r rest ih =>
    intro h
    have hrest : ∀ x ∈ rest, x.id = rid → x.workerId ≠ wid :=
      fun x hx => h x (List.mem_cons_of_mem _ hx)
    unfold closeRecord at ih ⊢
    rw [List.map_cons, List.filterMap_cons, List.filterMap_cons]
    by_cases h0 : r.id = rid
    · have hrw : r.workerId ≠ wid := h r (List.mem_cons_self _ _) h0
      rw [if_pos h0]
      simp only [if_neg hrw]
      exact ih hrest
    · rw [if_neg h0]
      rcases hf : (if r.workerId = wid then r.checkout_timestamp else none) with _ | b
      · exact ih hrest
      · rw [ih hrest]

/-- The most recent checkout of a worker is unchanged by closing a row of a
different worker. -/
theorem lastCheckout_closeRecord (db : List PersistedRecord) (rid : Nat)
    (t : Int) (wid : String)
    (h : ∀ r ∈ db, r.id = rid → r.workerId ≠ wid) :
    lastCheckout (closeRecord db rid t) wid = lastCheckout db wid := by
  unfold lastCheckout
  rw [filterMap_closeRecord db rid t wid h]

/-- The local calendar day is monotone in time. -/
theorem localDay_mono (tzOffset : Int) {a b : Int} (h : a ≤ b) :
    localDay tzOffset a ≤ localDay tzOffset b := by
  unfold localDay
  rw [Int.fdiv_eq_ediv _ (by norm_num [dayMillis]),
    Int.fdiv_eq_ediv _ (by norm_num [dayMillis])]
  exact Int.ediv_le_ediv (by norm_num [dayMillis]) (by omega)

/-- A checkout out of both the same-day window and the cooldown stays out as
time moves forward. -/
theorem lastCheckoutOk_mono (tzOffset now now2 : Int) (db : List PersistedRecord)
    (wid : String) (h : LastCheckoutOk tzOffset now db wid) (hle : now ≤ now2) :
    LastCheckoutOk tzOffset now2 db wid := by
  intro c hc
  obtain ⟨hsame, hgap⟩ := h c hc
  have hnine : (0 : Int) < nineHoursInMillis := by norm_num [nineHoursInMillis]
  have hclt : c < now := by omega
  have hne : localDay tzOffset c ≠ localDay tzOffset now := by
    simpa [sameLocalDay] using hsame
  have h1 : localDay tzOffset c < localDay tzOffset now :=
    lt_of_le_of_ne (localDay_mono tzOffset hclt.le) hne
  have h2 : localDay tzOffset now ≤ localDay tzOffset now2 := localDay_mono tzOffset hle
  constructor
  · simp only [sameLocalDay, decide_eq_false_iff_not]
    omega
  · omega

/-- The buffer invariant survives the auto-close performed for a resolved
worker: the closed row belongs to that worker, who cannot be buffered. -/
theorem bufferInv_closeRecord (st : ScanState) (vid : String)
    (ac : PersistedRecord)
    (hreg : RegistryWF st.workers)
    (hnd : (st.db.map (fun r => r.id)).Nodup)
    (hinv : BufferInv st)
    (hvmem : ∃ v ∈ st.workers, v.id = some vid)
    (hac : findActiveCheckin st.db vid = some ac) (t : Int) :
    BufferInv { st with db := closeRecord st.db ac.id t } := by
  obtain ⟨v, hvm, hvid⟩ := hvmem
  intro b hb
  obtain ⟨w, wid, hwres, hops, hwid, hbw, hopen, hlast, hdept⟩ := hinv b hb
  obtain ⟨hacm, hacw, haco⟩ := findActiveCheckin_some st.db vid ac hac
  have hwm : w ∈ st.workers := List.mem_of_find?_eq_some hwres
  have hvw : vid ≠ wid := by
    intro hvw
    have hvweq : v = w := hreg v hvm w hwm (by rw [hvid, hwid, hvw]) (by simp [hvid])
    rw [hvw, hopen] at hac
    cases hac
  have hidw : ∀ r ∈ st.db, r.id = ac.id → r.workerId ≠ wid := by
    intro r hr hid2
    have hrac : r = ac := idsNodup_unique st.db hnd r ac hr hacm hid2
    rw [hrac, hacw]
    exact hvw
  refine ⟨w, wid, hwres, hops, hwid, hbw, ?_, ?_, hdept⟩
  · exact findActiveCheckin_closeRecord_none st.db ac.id t wid hopen
  · intro c hc
    rw [lastCheckout_closeRecord st.db ac.id t wid hidw] at hc
    exact hlast c hc

/-- A worker passing checks 1-5 and absent from the buffer extends the
buffer invariant. -/
theorem bufferInv_extend (st : ScanState) (v : Worker) (vid : String)
    (hinv : BufferInv st)
    (hres : resolveWorker st.workers v.opsId = some v)
    (hvid : v.id = some vid)
    (hopen : findActiveCheckin st.db vid = none)
    (hlast : LastCheckoutOk st.tzOffset st.now st.db vid)
    (hdept : departmentAllowed st.division v.department = true) :
    BufferInv { st with buffer :=
      { workerId := vid, opsId := v.opsId, fullName := v.fullName,
        timestamp := st.now } :: st.buffer } := by
  intro b hb
  rcases List.mem_cons.mp hb with rfl | hb2
  · exact ⟨v, vid, hres, rfl, hvid, rfl, hopen, hlast, hdept⟩
  · exact hinv b hb2

/-- The invariant survives forward clock movement. -/
theorem good_advance (st : ScanState) (t : Int) (h : st.now ≤ t)
    (hg : GoodScanState st) : GoodScanState { st with now := t } := by
  obtain ⟨hreg, hdb, hinv⟩ := hg
  refine ⟨hreg, hdb, ?_⟩
  intro b hb
  obtain ⟨w, wid, hwres, hops, hwid, hbw, hopen, hlast, hdept⟩ := hinv b hb
  exact ⟨w, wid, hwres, hops, hwid, hbw, hopen,
    lastCheckoutOk_mono st.tzOffset st.now t st.db wid hlast h, hdept⟩

/-- The invariant survives checks 5-6 and the success path. -/
theorem good_checkDeptDup (st : ScanState) (v : Worker) (vid : String)
    (hg : GoodScanState st)
    (hres : resolveWorker st.workers v.opsId = some v)
    (hvid : v.id = some vid)
    (hopen : findActiveCheckin st.db vid = none)
    (hlast : LastCheckoutOk st.tzOffset st.now st.db vid) :
    GoodScanState (checkDeptDup st v vid).2 := by
  obtain ⟨hreg, hdb, hinv⟩ := hg
  unfold checkDeptDup
  by_cases hdept : departmentAllowed st.division v.department
  · rw [if_pos hdept]
    by_cases hdup : st.buffer.any (fun r => r.opsId == v.opsId)
    · rw [if_pos hdup]
      exact ⟨hreg, hdb, hinv⟩
    · rw [if_neg hdup]
      exact ⟨hreg, hdb, bufferInv_extend st v vid hinv hres hvid hopen hlast hdept⟩
  · rw [if_neg hdept]
    exact ⟨hreg, hdb, hinv⟩

/-- The invariant survives checks 3-6. -/
theorem good_checkHistory (st : ScanState) (v : Worker) (vid : String)
    (hg : GoodScanState st)
    (hres : resolveWorker st.workers v.opsId = some v)
    (hvid : v.id = some vid)
    (hopen : findActiveCheckin st.db vid = none) :
    GoodScanState (checkHistory st v vid).2 := by
  unfold checkHistory
  rcases hlc : lastCheckout st.db vid with _ | c <;> simp only []
  · refine good_checkDeptDup st v vid hg hres hvid hopen ?_
    intro c hc
    rw [hlc] at hc
    cases hc
  · by_cases hsame : sameLocalDay st.tzOffset c st.now = true
    · rw [if_pos hsame]
      exact hg
    · rw [if_neg hsame]
      by_cases hcool : st.now - c < nineHoursInMillis
      · rw [if_pos hcool]
        exact hg
      · rw [if_neg hcool]
        refine good_checkDeptDup st v vid hg hres hvid hopen ?_
        intro c2 hc2
        rw [hlc] at hc2
        injection hc2 with hc2
        subst hc2
        exact ⟨Bool.eq_false_iff.mpr hsame, by omega⟩

/-- The invariant survives any scan. -/
theorem good_handleScan (st : ScanState) (input : String)
    (hg : GoodScanState st) : GoodScanState (handleScan st input).2 := by
  unfold handleScan
  by_cases hbl : isBlank input
  · rw [if_pos hbl]
    exact hg
  · rw [if_neg hbl]
    rcases hres : resolveWorker st.workers input with _ | v <;> simp only []
    · exact hg
    · rcases hvid : v.id with _ | vid <;> simp only []
      · exact hg
      · rcases hac : findActiveCheckin st.db vid with _ | ac <;> simp only []
        · exact good_checkHistory st v vid hg
            (resolveWorker_self st.workers input v hres) hvid hac
        · by_cases hstale : nineHoursInMillis < st.now - ac.timestamp
          · rw [if_pos hstale]
            obtain ⟨hreg, hdb, hinv⟩ := hg
            have hg1 : GoodScanState
                { st with
                  db := closeRecord st.db ac.id
                    (ac.timestamp + nineHoursInMillis) } := by
              refine ⟨hreg, dbWF_closeRecord st.db ac.id _ hdb, ?_⟩
              exact bufferInv_closeRecord st vid ac hreg hdb.1 hinv
                ⟨v, List.mem_of_find?_eq_some hres, hvid⟩ hac _
            exact good_checkHistory _ v vid hg1
              (resolveWorker_self st.workers input v hres) hvid
              (findActiveCheckin_closeRecord_self st.db vid ac _ hdb.2 hac)
          · rw [if_neg hstale]
            exact hg

/-- The invariant holds in every state reachable by scans and clock
movements. -/
theorem good_reachable (st0 st : ScanState) (hg : GoodScanState st0)
    (hr : ScanReachable st0 st) : GoodScanState st := by
  induction hr with
  | refl => exact hg
  | tail hsteps hstep ih =>
    cases hstep with
    | scan input => exact good_handleScan _ input ih
    | advanceTime t h => exact good_advance _ t h ih

/-- C8: in any state of an open session reached from a well-formed start
(empty buffer, distinct row ids, at most one open record per worker, worker
ids acting as identities) by any sequence of scans and clock movements, a
scan whose input resolves case-insensitively to a worker whose opsId is
already buffered is rejected with the duplicate-in-session failure and
changes nothing — regardless of the order of the earlier scans or of the
letter case of the input. -/
theorem scan_duplicate_in_session_rejected (st0 st : ScanState) (input : String)
    (w : Worker)
    (hreg : RegistryWF st0.workers) (hdb : DbWF st0.db) (hbuf : st0.buffer = [])
    (hreach : ScanReachable st0 st)
    (hin : isBlank input = false)
    (hw : resolveWorker st.workers input = some w)
    (hdup : st.buffer.any (fun r => r.opsId == w.opsId) = true) :
    handleScan st input = (.duplicateInSession, st) := by
  have hg0 : GoodScanState st0 := by
    refine ⟨hreg, hdb, ?_⟩
    intro b hb
    rw [hbuf] at hb
    cases hb
  obtain ⟨hreg2, hdb2, hinv⟩ := good_reachable st0 st hg0 hreach
  rcases List.any_eq_true.mp hdup with ⟨b, hbm, hbops⟩
  have hbops2 : b.opsId = w.opsId := by simpa using hbops
  obtain ⟨w2, wid, hw2res, hops2, hwid2, hbw2, hopen2, hlast2, hdept2⟩ := hinv b hbm
  have hw_self : resolveWorker st.workers w.opsId = some w :=
    resolveWorker_self st.workers input w hw
  have hw2eq : w2 = w := by
    rw [hbops2, hw_self] at hw2res
    injection hw2res with h
    exact h.symm
  subst hw2eq
  have hmain := (handleScan_open_branch st input w2 wid hin hw hwid2).2 st
    (by unfold scanStateAfterOpenCheck; rw [hopen2])
  rw [hmain]
  have hch : checkHistory st w2 wid = checkDeptDup st w2 wid := by
    refine (checkHistory_cases st w2 wid).2.2 ?_
    rcases hlc : lastCheckout st.db wid with _ | c
    · exact Or.inl rfl
    · obtain ⟨hs, hgap⟩ := hlast2 c hlc
      exact Or.inr ⟨c, rfl, hs, hgap⟩
  rw [hch]
  exact ((checkDeptDup_cases st w2 wid).2 hdept2).1 hdup

/-- Closed evaluation of `scan_duplicate_in_session_rejected`: after
scanning `OPS1` once, re-scanning the same worker as `ops1` (different
letter case) is rejected as a duplicate and the state is unchanged. -/
theorem scan_duplicate_in_session_rejected_witness :
    handleScan stC8 "ops1" = (.duplicateInSession, stC8) := by
  exact scan_duplicate_in_session_rejected stC8init stC8 "ops1" wAlice
    (by
      intro w1 h1 w2 h2 hid hnn
      rcases List.mem_singleton.mp h1 with rfl
      rcases List.mem_singleton.mp h2 with rfl
      rfl)
    ⟨by simp [stC8init], List.Pairwise.nil⟩ rfl
    (Relation.ReflTransGen.single (ScanStep.scan stC8init "OPS1"))
    (by decide) (by decide) (by decide)
